import Mathlib

/-!
Verification development for the normalization and filtering core of the
Pegasus-Bazooka OSINT pipeline (`utils/data_processing.py`).

Raw provider payloads and canonical records are Python dictionaries with
string keys and JSON-like values, so we embed a small dynamic value type
`PyVal` together with the pieces of Python semantics the code exercises:
truthiness, key membership, subscripting, `dict.get` with default,
`float()` conversion, numeric `sum`/`len`/division, and `str()` rendering
for f-string interpolation.  Fallible operations return
`Except PyErr _`, mirroring the exceptions CPython would raise.
-/

/-- Exception classes that the embedded code can raise. -/
inductive PyErr where
  | keyError
  | typeError
  | valueError
  | attributeError
  | indexError
  | zeroDivisionError
deriving DecidableEq

/-- Naive or timezone-aware `datetime.datetime` value.  `tzOffset` is the
UTC offset in seconds (`none` for a naive datetime). -/
structure PyDatetime where
  year : Nat
  month : Nat
  day : Nat
  hour : Nat
  minute : Nat
  second : Nat
  tzOffset : Option Int
deriving DecidableEq

/-- JSON-like Python values as they occur in raw provider payloads and in
canonical records: `None`, booleans, ints, floats (modelled exactly as
rationals), strings, lists, string-keyed dicts, and datetime objects. -/
inductive PyVal where
  | none
  | bool (b : Bool)
  | int (n : Int)
  | float (q : ℚ)
  | str (s : String)
  | list (xs : List PyVal)
  | dict (d : List (String × PyVal))
  | dt (t : PyDatetime)

/-- Python dictionary with string keys, in insertion order. -/
abbrev PyDict := List (String × PyVal)

/-- Python truthiness: `None`, `False`, zero, and empty containers are falsy. -/
def truthy : PyVal → Bool
  | .none => false
  | .bool b => b
  | .int n => n ≠ 0
  | .float q => q ≠ 0
  | .str s => s ≠ ""
  | .list xs => ¬ xs.isEmpty
  | .dict d => ¬ d.isEmpty
  | .dt _ => true

/-- Dictionary lookup (`d[k]` when the key is known present; `k in d`
tests via `Option.isSome`). -/
def getKey (d : PyDict) (k : String) : Option PyVal :=
  (d.find? (fun p => p.1 = k)).map (fun p => p.2)

/-- The keys of a dictionary, in order. -/
def dictKeys (d : PyDict) : List String := d.map (fun p => p.1)

/-- Dictionary update `d[k] = v`: overwrite in place when the key exists,
append otherwise (CPython insertion-order semantics). -/
def setKey (d : PyDict) (k : String) (v : PyVal) : PyDict :=
  match d with
  | [] => [(k, v)]
  | p :: rest => if p.1 = k then (k, v) :: rest else p :: setKey rest k v

/-- Python `d.get(k, default)` on a dictionary value; any other receiver
raises `AttributeError` (no such method). -/
def pyGetD (v : PyVal) (k : String) (dfl : PyVal) : Except PyErr PyVal :=
  match v with
  | .dict d => .ok ((getKey d k).getD dfl)
  | _ => .error .attributeError

/-- Membership test `k in v` for a string literal `k`: key lookup on a
dict, element equality on a list (a non-string element never equals a
string), substring test on a string; other receivers raise `TypeError`. -/
def pyContainsStr (v : PyVal) (k : String) : Except PyErr Bool :=
  match v with
  | .dict d => .ok (getKey d k).isSome
  | .list xs => .ok (xs.any (fun x => match x with | .str s => s = k | _ => false))
  | .str s => .ok ((s.data.tails).any (fun t => k.data.isPrefixOf t))
  | _ => .error .typeError

/-- Subscript `v[k]` with a string key: dict lookup (`KeyError` when
absent); lists and strings require integer indices (`TypeError`). -/
def pyIndexStr (v : PyVal) (k : String) : Except PyErr PyVal :=
  match v with
  | .dict d => match getKey d k with
    | some x => .ok x
    | Option.none => .error .keyError
  | _ => .error .typeError

/-- Subscript `v[i]` with a non-negative integer index: list element
(`IndexError` out of bounds), single-character string, `KeyError` on a
string-keyed dict; other receivers raise `TypeError`. -/
def pyIndexNat (v : PyVal) (i : Nat) : Except PyErr PyVal :=
  match v with
  | .list xs => match xs.get? i with
    | some x => .ok x
    | Option.none => .error .indexError
  | .str s => match s.data.get? i with
    | some c => .ok (.str (String.mk [c]))
    | Option.none => .error .indexError
  | .dict _ => .error .keyError
  | _ => .error .typeError

/-- ASCII lowercasing, as applied by `str.lower` on the ASCII text that
flows through this pipeline. -/
def strLower (s : String) : String := String.mk (s.data.map Char.toLower)

/-- Substring containment `needle in hay` on Python strings. -/
def strContains (hay needle : String) : Bool :=
  (hay.data.tails).any (fun t => needle.data.isPrefixOf t)

/-- Digit value of an ASCII character. -/
def digitVal (c : Char) : Nat := c.toNat - 48

/-- Natural number denoted by a list of ASCII digits (most significant first). -/
def natOfDigits (cs : List Char) : Nat :=
  cs.foldl (fun a c => a * 10 + digitVal c) 0

/-- Whitespace characters stripped by Python `float()`. -/
def isPyWs (c : Char) : Bool := c = ' ' ∨ c = '\t' ∨ c = '\n' ∨ c = '\r'

/-- Exponent suffix of a float literal: empty, or `e`/`E`, an optional
sign, and at least one digit. -/
def parseExp (cs : List Char) : Option Int :=
  match cs with
  | [] => some 0
  | e :: rest =>
    if e = 'e' ∨ e = 'E' then
      let signed : Bool × List Char :=
        match rest with
        | '-' :: r2 => (true, r2)
        | '+' :: r2 => (false, r2)
        | r2 => (false, r2)
      let ds := signed.2
      if ds ≠ [] ∧ ds.all (fun c => c.isDigit) then
        some (if signed.1 then -(natOfDigits ds : Int) else (natOfDigits ds : Int))
      else Option.none
    else Option.none

/-- Decimal float literal accepted by Python `float()` (after stripping
whitespace and sign): digits with an optional fractional part, or a bare
fractional part, both with an optional exponent.  The special non-finite
spellings `inf`/`nan` do not arise in this pipeline and are outside the
rational model, so they are not accepted here. -/
def parseUnsignedFloat (cs : List Char) : Option ℚ :=
  let ip := cs.takeWhile (fun c => c.isDigit)
  let r1 := cs.dropWhile (fun c => c.isDigit)
  match r1 with
  | '.' :: r2 =>
    let fp := r2.takeWhile (fun c => c.isDigit)
    let r3 := r2.dropWhile (fun c => c.isDigit)
    if ip = [] ∧ fp = [] then Option.none
    else
      (parseExp r3).map (fun e =>
        ((natOfDigits ip : ℚ) + (natOfDigits fp : ℚ) / (10 : ℚ) ^ fp.length)
          * (10 : ℚ) ^ e)
  | r1 =>
    if ip = [] then Option.none
    else (parseExp r1).map (fun e => (natOfDigits ip : ℚ) * (10 : ℚ) ^ e)

/-- String form accepted by Python `float()`: optional surrounding
whitespace, optional sign, then a decimal literal. -/
def parseFloatStr (s : String) : Option ℚ :=
  let cs := (s.data.dropWhile isPyWs).reverse.dropWhile isPyWs |>.reverse
  match cs with
  | '-' :: rest => (parseUnsignedFloat rest).map (fun q => -q)
  | '+' :: rest => parseUnsignedFloat rest
  | rest => parseUnsignedFloat rest

/-- Python `float(v)`: numbers and booleans convert, numeric strings are
parsed (`ValueError` otherwise), everything else raises `TypeError`. -/
def pyFloat (v : PyVal) : Except PyErr ℚ :=
  match v with
  | .int n => .ok (n : ℚ)
  | .float q => .ok q
  | .bool b => .ok (if b then 1 else 0)
  | .str s => match parseFloatStr s with
    | some q => .ok q
    | Option.none => .error .valueError
  | _ => .error .typeError

/-- Numeric interpretation for Python `+` with int/float/bool promotion. -/
def pyNum (v : PyVal) : Option (Bool × ℚ) :=
  match v with
  | .int n => some (false, (n : ℚ))
  | .bool b => some (false, if b then 1 else 0)
  | .float q => some (true, q)
  | _ => Option.none

/-- Python numeric addition as used by `sum(...)`: ints (and booleans)
stay ints, any float operand promotes the result to float; non-numeric
operands raise `TypeError`. -/
def pyAdd (a b : PyVal) : Except PyErr PyVal :=
  match pyNum a, pyNum b with
  | some fa, some fb =>
    let q := fa.2 + fb.2
    .ok (if fa.1 ∨ fb.1 then .float q else .int ⌊q⌋)
  | _, _ => .error .typeError

/-- Python `sum(xs)` with the default integer start value `0`. -/
def pySum (xs : List PyVal) : Except PyErr PyVal :=
  xs.foldlM pyAdd (.int 0)

/-- Python `len(v)` on containers. -/
def pyLen (v : PyVal) : Except PyErr Nat :=
  match v with
  | .list xs => .ok xs.length
  | .str s => .ok s.data.length
  | .dict d => .ok d.length
  | _ => .error .typeError

/-- Python true division: the result is always a float;
division by zero raises. -/
def pyDiv (a b : PyVal) : Except PyErr PyVal :=
  match pyNum a, pyNum b with
  | some fa, some fb =>
    if fb.2 = 0 then .error .zeroDivisionError else .ok (.float (fa.2 / fb.2))
  | _, _ => .error .typeError

/-- Fractional digits of `r / d` (numerator remainder `r`, denominator
`d`), at most `fuel` of them.  Terminates early when the remainder is 0. -/
def fracDigits : Nat → Nat → Nat → List Char
  | 0, _, _ => []
  | _ + 1, 0, _ => []
  | fuel + 1, r, d => Char.ofNat (48 + (r * 10) / d) :: fracDigits fuel ((r * 10) % d) d

/-- Rendering of a Python float by `str()`: sign, integer part, and the
decimal expansion of the fractional part (exact for the decimal-valued
floats this pipeline produces; truncated at 20 digits otherwise, an
approximation of shortest-roundtrip repr that no claim exercises). -/
def floatRepr (q : ℚ) : String :=
  let sign := if q < 0 then "-" else ""
  let n := q.num.natAbs
  let d := q.den
  let frac := fracDigits 20 (n % d) d
  sign ++ toString (n / d) ++ "." ++ (if frac.isEmpty then "0" else String.mk frac)

/-- Python `str()` rendering as used inside the f-strings of the
normalizer.  Strings render as themselves, `None`, booleans, ints and
floats as in CPython.  Container and datetime renderings are abbreviated
placeholders: no code path in the claims interpolates one. -/
def pyStr : PyVal → String
  | .str s => s
  | .none => "None"
  | .bool b => if b then "True" else "False"
  | .int n => toString n
  | .float q => floatRepr q
  | .list _ => "[...]"
  | .dict _ => "\x7b...\x7d"
  | .dt _ => "datetime"

/-- Python iteration `for c in v`: list elements, characters of a string,
keys of a dict; other values are not iterable. -/
def pyIter (v : PyVal) : Except PyErr (List PyVal) :=
  match v with
  | .list xs => .ok xs
  | .str s => .ok (s.data.map (fun c => .str (String.mk [c])))
  | .dict d => .ok (d.map (fun p => .str p.1))
  | _ => .error .typeError

/-- Canonical record skeleton built at the top of `normalize_data`: the
nine fields with their defaults, `source` stamped and the raw payload
carried through. -/
def initNormalized (data : PyDict) (source : String) : PyDict :=
  [("source", .str source), ("latitude", .none), ("longitude", .none),
   ("title", .str ""), ("content", .str ""), ("date", .none),
   ("url", .str ""), ("image_url", .str ""), ("raw_data", .dict data)]

/-- The seven canonical fields that the per-source branches may assign
(`source` and `raw_data` are set only by the skeleton). -/
inductive RecField where
  | latitude
  | longitude
  | title
  | content
  | date
  | url
  | image_url
deriving DecidableEq

/-- Dictionary key written by an assignment to a canonical field. -/
def RecField.key : RecField → String
  | .latitude => "latitude"
  | .longitude => "longitude"
  | .title => "title"
  | .content => "content"
  | .date => "date"
  | .url => "url"
  | .image_url => "image_url"

/-- Run a list of `normalized[k] = v` assignments in order.  The source
interleaves conditionals (which read only the raw `data`) with these
assignments, so collecting the assignments each branch performs and then
folding them is an exact account of the final dictionary state. -/
def applyAssigns (n : PyDict) (l : List (RecField × PyVal)) : PyDict :=
  l.foldl (fun m p => setKey m p.1.key p.2) n

/-- Sequential evaluation of a Python generator expression: map the body
over the items in order, propagating the first exception. -/
def exMapM {α β : Type} (f : α → Except PyErr β) : List α → Except PyErr (List β)
  | [] => .ok []
  | a :: l => do
    let b ← f a
    let bs ← exMapM f l
    return b :: bs

/-- Twitter bounding-box fallback: on
`'place' in data and data['place'] and 'bounding_box' in data['place']`,
take the first ring of `data['place']['bounding_box']['coordinates']` and
assign the arithmetic means `sum(c[1])/len` and `sum(c[0])/len` to
latitude and longitude. -/
def twPlaceAssigns (data : PyDict) : Except PyErr (List (RecField × PyVal)) := do
  match getKey data "place" with
  | some place =>
    if truthy place then do
      let hasBB ← pyContainsStr place "bounding_box"
      if hasBB then do
        let bb ← pyIndexStr place "bounding_box"
        let coordsOuter ← pyIndexStr bb "coordinates"
        let coords ← pyIndexNat coordsOuter 0
        let items ← pyIter coords
        let lats ← exMapM (fun c => pyIndexNat c 1) items
        let latSum ← pySum lats
        let lons ← exMapM (fun c => pyIndexNat c 0) items
        let lonSum ← pySum lons
        let n ← pyLen coords
        let lat ← pyDiv latSum (.int n)
        let lon ← pyDiv lonSum (.int n)
        return [(RecField.latitude, lat), (RecField.longitude, lon)]
      else return []
    else return []
  | Option.none => return []

/-- Twitter geotag extraction: on
`'geo' in data and data['geo'] and 'coordinates' in data['geo']`, copy
`data['geo']['coordinates'][0]` and `[1]` verbatim into latitude and
longitude; otherwise fall back to the bounding-box branch. -/
def twGeoAssigns (data : PyDict) : Except PyErr (List (RecField × PyVal)) := do
  match getKey data "geo" with
  | some geo =>
    if truthy geo then do
      let hasCoords ← pyContainsStr geo "coordinates"
      if hasCoords then do
        let coords ← pyIndexStr geo "coordinates"
        let c0 ← pyIndexNat coords 0
        let c1 ← pyIndexNat coords 1
        return [(RecField.latitude, c0), (RecField.longitude, c1)]
      else twPlaceAssigns data
    else twPlaceAssigns data
  | Option.none => twPlaceAssigns data

/-- Twitter title: `"@" + data.get('user', {}).get('screen_name', '')`,
rendered by the f-string. -/
def twTitleAssign (data : PyDict) : Except PyErr (List (RecField × PyVal)) := do
  let user := (getKey data "user").getD (.dict [])
  let sn ← pyGetD user "screen_name" (.str "")
  return [(RecField.title, .str ("@" ++ pyStr sn))]

/-- Twitter url: on `'id_str' in data and 'user' in data and
'screen_name' in data['user']`, compose the status link. -/
def twUrlAssign (data : PyDict) : Except PyErr (List (RecField × PyVal)) := do
  match getKey data "id_str" with
  | some ids =>
    match getKey data "user" with
    | some user => do
      let hasSn ← pyContainsStr user "screen_name"
      if hasSn then do
        let sn ← pyIndexStr user "screen_name"
        return [(RecField.url,
          .str ("https://twitter.com/" ++ pyStr sn ++ "/status/" ++ pyStr ids))]
      else return []
    | Option.none => return []
  | Option.none => return []

/-- Twitter image url: on `'entities' in data and 'media' in
data['entities'] and data['entities']['media']`, take
`media[0].get('media_url_https', '')`. -/
def twMediaAssign (data : PyDict) : Except PyErr (List (RecField × PyVal)) := do
  match getKey data "entities" with
  | some ents => do
    let hasMedia ← pyContainsStr ents "media"
    if hasMedia then do
      let media ← pyIndexStr ents "media"
      if truthy media then do
        let m0 ← pyIndexNat media 0
        let u ← pyGetD m0 "media_url_https" (.str "")
        return [(RecField.image_url, u)]
      else return []
    else return []
  | Option.none => return []

/-- All assignments of the `source == 'twitter'` branch, in source order:
geo/place coordinates, title, content (`data.get('text', '')`), date
(`created_at` copied verbatim), url, image url. -/
def twitterAssigns (data : PyDict) : Except PyErr (List (RecField × PyVal)) := do
  let geoPart ← twGeoAssigns data
  let titlePart ← twTitleAssign data
  let contentPart := [(RecField.content, (getKey data "text").getD (.str ""))]
  let datePart := match getKey data "created_at" with
    | some v => [(RecField.date, v)]
    | Option.none => []
  let urlPart ← twUrlAssign data
  let mediaPart ← twMediaAssign data
  return geoPart ++ titlePart ++ contentPart ++ datePart ++ urlPart ++ mediaPart

/-- YouTube coordinate extraction: on `'location' in data and 'latitude'
in data['location'] and 'longitude' in data['location']`, both values
are copied verbatim. -/
def ytLocAssigns (data : PyDict) : Except PyErr (List (RecField × PyVal)) := do
  match getKey data "location" with
  | some loc => do
    let hasLat ← pyContainsStr loc "latitude"
    if hasLat then do
      let hasLon ← pyContainsStr loc "longitude"
      if hasLon then do
        let la ← pyIndexStr loc "latitude"
        let lo ← pyIndexStr loc "longitude"
        pure [(RecField.latitude, la), (RecField.longitude, lo)]
      else pure []
    else pure []
  | Option.none => pure []

/-- All assignments of the `source == 'youtube'` branch, continued:
title, description, date (`published_at`), url from the id, and
thumbnail, after the location part above. -/
def youtubeAssigns (data : PyDict) : Except PyErr (List (RecField × PyVal)) := do
  let locPart ← ytLocAssigns data
  let titlePart := [(RecField.title, (getKey data "title").getD (.str ""))]
  let contentPart := [(RecField.content, (getKey data "description").getD (.str ""))]
  let datePart := match getKey data "published_at" with
    | some v => [(RecField.date, v)]
    | Option.none => []
  let urlPart := match getKey data "id" with
    | some idv => [(RecField.url, PyVal.str ("https://www.youtube.com/watch?v=" ++ pyStr idv))]
    | Option.none => []
  let imgPart := match getKey data "thumbnail_url" with
    | some v => [(RecField.image_url, v)]
    | Option.none => []
  return locPart ++ titlePart ++ contentPart ++ datePart ++ urlPart ++ imgPart

/-- Flickr coordinate extraction: on `'latitude' in data and 'longitude'
in data`, both values are converted by `float(...)`. -/
def flCoordAssigns (data : PyDict) : Except PyErr (List (RecField × PyVal)) := do
  match getKey data "latitude", getKey data "longitude" with
  | some lav, some lov => do
    let laq ← pyFloat lav
    let loq ← pyFloat lov
    pure [(RecField.latitude, PyVal.float laq), (RecField.longitude, PyVal.float loq)]
  | _, _ => pure []

/-- All assignments of the `source == 'flickr'` branch, continued:
title, description, date (`date_taken`), url from owner and id, and
`url_m`, after the coordinate part above. -/
def flickrAssigns (data : PyDict) : Except PyErr (List (RecField × PyVal)) := do
  let coordPart ← flCoordAssigns data
  let titlePart := [(RecField.title, (getKey data "title").getD (.str ""))]
  let contentPart := [(RecField.content, (getKey data "description").getD (.str ""))]
  let datePart := match getKey data "date_taken" with
    | some v => [(RecField.date, v)]
    | Option.none => []
  let urlPart ←
    match getKey data "id", getKey data "owner" with
    | some idv, some ov =>
      pure [(RecField.url,
        PyVal.str ("https://www.flickr.com/photos/" ++ pyStr ov ++ "/" ++ pyStr idv))]
    | _, _ => pure []
  let imgPart := match getKey data "url_m" with
    | some v => [(RecField.image_url, v)]
    | Option.none => []
  return coordPart ++ titlePart ++ contentPart ++ datePart ++ urlPart ++ imgPart

/-- Dispatch of the `if source == ... / elif ...` chain: the assignments
performed by the branch of the given source (an unknown tag performs
none). -/
def sourceAssigns (data : PyDict) (source : String) :
    Except PyErr (List (RecField × PyVal)) :=
  if source = "twitter" then twitterAssigns data
  else if source = "youtube" then youtubeAssigns data
  else if source = "flickr" then flickrAssigns data
  else pure []

/-- Embedding of `normalize_data(data, source)`: build the canonical
skeleton, then perform the per-source field assignments.  A Python
exception anywhere in a branch aborts the whole call, which the
`Except` propagation reproduces. -/
def normalize_data (data : PyDict) (source : String) : Except PyErr PyDict := do
  let assigns ← sourceAssigns data source
  return applyAssigns (initNormalized data source) assigns

/-- Gregorian leap-year rule. -/
def isLeapYear (y : Nat) : Bool := (y % 4 = 0 ∧ y % 100 ≠ 0) ∨ y % 400 = 0

/-- Length of a month in the proleptic Gregorian calendar. -/
def daysInMonth (y m : Nat) : Nat :=
  if m = 2 then (if isLeapYear y then 29 else 28)
  else if m = 4 ∨ m = 6 ∨ m = 9 ∨ m = 11 then 30 else 31

/-- Construction of a `datetime.datetime`: the constructor validates the
field ranges (notably the day against the month length and seconds up to
59) and raises `ValueError` otherwise, which `strptime` propagates. -/
def mkDatetime (y mo d h mi s : Nat) (tz : Option Int) : Option PyDatetime :=
  if 1 ≤ y ∧ y ≤ 9999 ∧ 1 ≤ mo ∧ mo ≤ 12 ∧ 1 ≤ d ∧ d ≤ daysInMonth y mo ∧
      h ≤ 23 ∧ mi ≤ 59 ∧ s ≤ 59 then
    some ⟨y, mo, d, h, mi, s, tz⟩
  else Option.none

/-- Days since 1970-01-01 of a proleptic Gregorian date with `y ≥ 1`
(civil-from-days algorithm; all divisions are on naturals, hence floor). -/
def daysFromCivil (y m d : Nat) : Int :=
  let yAdj : Nat := y - (if m ≤ 2 then 1 else 0)
  let era : Nat := yAdj / 400
  let yoe : Nat := yAdj - era * 400
  let mp : Nat := (m + 9) % 12
  let doy : Nat := (153 * mp + 2) / 5 + d - 1
  let doe : Nat := yoe * 365 + yoe / 4 - yoe / 100 + doy
  (era : Int) * 146097 + (doe : Int) - 719468

/-- Seconds since the epoch of the wall-clock fields (ignoring any
offset).  For valid datetimes this encoding is strictly monotone in the
field tuple, so it realises Python's naive-datetime comparison. -/
def epochSeconds (t : PyDatetime) : Int :=
  daysFromCivil t.year t.month t.day * 86400
    + ((t.hour * 3600 + t.minute * 60 + t.second : Nat) : Int)

/-- Python `a < b` on datetimes: naive pairs compare by wall clock, aware
pairs by UTC instant, and mixing naive with aware raises `TypeError`. -/
def pyLtDT (a b : PyDatetime) : Except PyErr Bool :=
  match a.tzOffset, b.tzOffset with
  | Option.none, Option.none => .ok (decide (epochSeconds a < epochSeconds b))
  | some x, some y => .ok (decide (epochSeconds a - x < epochSeconds b - y))
  | _, _ => .error .typeError

/-- Python `a > b` on datetimes. -/
def pyGtDT (a b : PyDatetime) : Except PyErr Bool := pyLtDT b a

/-- Directive `%Y` of `strptime`: exactly four digits. -/
def parseYear4 : List Char → Option (Nat × List Char)
  | c1 :: c2 :: c3 :: c4 :: rest =>
    if c1.isDigit ∧ c2.isDigit ∧ c3.isDigit ∧ c4.isDigit then
      some (natOfDigits [c1, c2, c3, c4], rest)
    else Option.none
  | _ => Option.none

/-- Directive `%m`: the CPython pattern `1[0-2]|0[1-9]|[1-9]`.  The
numeric directives of the formats used here are always followed by a
non-digit, so taking two digits when the two-character alternatives fit
and falling back to one digit agrees with the backtracking regex. -/
def parseMonthNum : List Char → Option (Nat × List Char)
  | c1 :: c2 :: rest =>
    if c1 = '1' ∧ ('0' ≤ c2 ∧ c2 ≤ '2') then some (10 + digitVal c2, rest)
    else if c1 = '0' ∧ ('1' ≤ c2 ∧ c2 ≤ '9') then some (digitVal c2, rest)
    else if '1' ≤ c1 ∧ c1 ≤ '9' then some (digitVal c1, c2 :: rest)
    else Option.none
  | [c1] => if '1' ≤ c1 ∧ c1 ≤ '9' then some (digitVal c1, []) else Option.none
  | [] => Option.none

/-- Directive `%d`: the pattern `3[01]|[12]\d|0[1-9]|[1-9]`. -/
def parseDay : List Char → Option (Nat × List Char)
  | c1 :: c2 :: rest =>
    if c1 = '3' ∧ (c2 = '0' ∨ c2 = '1') then some (30 + digitVal c2, rest)
    else if (c1 = '1' ∨ c1 = '2') ∧ c2.isDigit then
      some (10 * digitVal c1 + digitVal c2, rest)
    else if c1 = '0' ∧ ('1' ≤ c2 ∧ c2 ≤ '9') then some (digitVal c2, rest)
    else if '1' ≤ c1 ∧ c1 ≤ '9' then some (digitVal c1, c2 :: rest)
    else Option.none
  | [c1] => if '1' ≤ c1 ∧ c1 ≤ '9' then some (digitVal c1, []) else Option.none
  | [] => Option.none

/-- Directive `%H`: the pattern `2[0-3]|[0-1]\d|\d`. -/
def parseHour : List Char → Option (Nat × List Char)
  | c1 :: c2 :: rest =>
    if c1 = '2' ∧ ('0' ≤ c2 ∧ c2 ≤ '3') then some (20 + digitVal c2, rest)
    else if (c1 = '0' ∨ c1 = '1') ∧ c2.isDigit then
      some (10 * digitVal c1 + digitVal c2, rest)
    else if c1.isDigit then some (digitVal c1, c2 :: rest)
    else Option.none
  | [c1] => if c1.isDigit then some (digitVal c1, []) else Option.none
  | [] => Option.none

/-- Directive `%M`: the pattern `[0-5]\d|\d`. -/
def parseMin : List Char → Option (Nat × List Char)
  | c1 :: c2 :: rest =>
    if ('0' ≤ c1 ∧ c1 ≤ '5') ∧ c2.isDigit then
      some (10 * digitVal c1 + digitVal c2, rest)
    else if c1.isDigit then some (digitVal c1, c2 :: rest)
    else Option.none
  | [c1] => if c1.isDigit then some (digitVal c1, []) else Option.none
  | [] => Option.none

/-- Directive `%S`: the pattern `6[0-1]|[0-5]\d|\d` (leap seconds are
matched by the regex and rejected later by the datetime constructor). -/
def parseSec : List Char → Option (Nat × List Char)
  | c1 :: c2 :: rest =>
    if c1 = '6' ∧ (c2 = '0' ∨ c2 = '1') then some (60 + digitVal c2, rest)
    else if ('0' ≤ c1 ∧ c1 ≤ '5') ∧ c2.isDigit then
      some (10 * digitVal c1 + digitVal c2, rest)
    else if c1.isDigit then some (digitVal c1, c2 :: rest)
    else Option.none
  | [c1] => if c1.isDigit then some (digitVal c1, []) else Option.none
  | [] => Option.none

/-- Case-insensitive match of one literal format character (the
`strptime` regex is compiled with IGNORECASE). -/
def parseLit (c : Char) : List Char → Option (List Char)
  | x :: rest => if x.toLower = c.toLower then some rest else Option.none
  | [] => Option.none

/-- Characters matched by `\s` in the regex. -/
def isReWs (c : Char) : Bool :=
  c = ' ' ∨ c = '\t' ∨ c = '\n' ∨ c = '\r' ∨ c = '\x0b' ∨ c = '\x0c'

/-- Whitespace in a `strptime` format matches `\s+`. -/
def parseWs : List Char → Option (List Char)
  | x :: rest => if isReWs x then some (rest.dropWhile isReWs) else Option.none
  | [] => Option.none

/-- Directive `%z`: sign, two hour digits, optional colon, two minute
digits `[0-5]\d`, optional seconds, or a literal `Z` (UTC).  The result
is the UTC offset in seconds; `timezone()` rejects offsets of 24 hours
or more with `ValueError`, which surfaces as a parse failure of this
format.  Fractional offset seconds do not arise here and are not
modelled. -/
def parseTz : List Char → Option (Option Int × List Char)
  | 'Z' :: rest => some (some 0, rest)
  | c :: h1 :: h2 :: r2 =>
    if (c = '+' ∨ c = '-') ∧ h1.isDigit ∧ h2.isDigit then
      let hh := 10 * digitVal h1 + digitVal h2
      let afterColon := match r2 with
        | ':' :: r3 => r3
        | r3 => r3
      match afterColon with
      | m1 :: m2 :: r4 =>
        if ('0' ≤ m1 ∧ m1 ≤ '5') ∧ m2.isDigit then
          let mm := 10 * digitVal m1 + digitVal m2
          let secPart : Nat × List Char :=
            match r4 with
            | ':' :: s1 :: s2 :: r5 =>
              if ('0' ≤ s1 ∧ s1 ≤ '5') ∧ s2.isDigit then
                (10 * digitVal s1 + digitVal s2, r5)
              else (0, r4)
            | s1 :: s2 :: r5 =>
              if ('0' ≤ s1 ∧ s1 ≤ '5') ∧ s2.isDigit then
                (10 * digitVal s1 + digitVal s2, r5)
              else (0, r4)
            | _ => (0, r4)
          let total : Int := ((hh * 3600 + mm * 60 + secPart.1 : Nat) : Int)
          if total < 86400 then
            some (some (if c = '-' then -total else total), secPart.2)
          else Option.none
        else Option.none
      | _ => Option.none
    else Option.none
  | _ => Option.none

/-- Match one of a list of fixed lowercase names, case-insensitively,
returning the associated value. -/
def parseNameIn : List (String × Nat) → List Char → Option (Nat × List Char)
  | [], _ => Option.none
  | (nm, v) :: rest, cs =>
    if (cs.take nm.data.length).map Char.toLower = nm.data then
      some (v, cs.drop nm.data.length)
    else parseNameIn rest cs

/-- Directive `%a`: an abbreviated weekday name, parsed and discarded
(`strptime` does not check it against the date). -/
def parseWeekday (cs : List Char) : Option (List Char) :=
  (parseNameIn
    [("mon", 0), ("tue", 1), ("wed", 2), ("thu", 3),
     ("fri", 4), ("sat", 5), ("sun", 6)] cs).map (fun p => p.2)

/-- Directive `%b`: an abbreviated month name. -/
def parseMonthName (cs : List Char) : Option (Nat × List Char) :=
  parseNameIn
    [("jan", 1), ("feb", 2), ("mar", 3), ("apr", 4), ("may", 5), ("jun", 6),
     ("jul", 7), ("aug", 8), ("sep", 9), ("oct", 10), ("nov", 11), ("dec", 12)] cs

/-- Format `'%Y-%m-%d %H:%M:%S'`: the whole string must be consumed. -/
def parseFmtYmdHMS (s : String) : Option PyDatetime := do
  let (y, r1) ← parseYear4 s.data
  let r2 ← parseLit '-' r1
  let (mo, r3) ← parseMonthNum r2
  let r4 ← parseLit '-' r3
  let (d, r5) ← parseDay r4
  let r6 ← parseWs r5
  let (h, r7) ← parseHour r6
  let r8 ← parseLit ':' r7
  let (mi, r9) ← parseMin r8
  let r10 ← parseLit ':' r9
  let (sec, r11) ← parseSec r10
  if r11 = [] then mkDatetime y mo d h mi sec Option.none else Option.none

/-- Format `'%Y-%m-%dT%H:%M:%S%z'`. -/
def parseFmtIsoZ (s : String) : Option PyDatetime := do
  let (y, r1) ← parseYear4 s.data
  let r2 ← parseLit '-' r1
  let (mo, r3) ← parseMonthNum r2
  let r4 ← parseLit '-' r3
  let (d, r5) ← parseDay r4
  let r6 ← parseLit 'T' r5
  let (h, r7) ← parseHour r6
  let r8 ← parseLit ':' r7
  let (mi, r9) ← parseMin r8
  let r10 ← parseLit ':' r9
  let (sec, r11) ← parseSec r10
  let (tz, r12) ← parseTz r11
  if r12 = [] then mkDatetime y mo d h mi sec tz else Option.none

/-- Format `'%a %b %d %H:%M:%S %z %Y'`, Twitter's native timestamp. -/
def parseFmtTwNative (s : String) : Option PyDatetime := do
  let r1 ← parseWeekday s.data
  let r2 ← parseWs r1
  let (mo, r3) ← parseMonthName r2
  let r4 ← parseWs r3
  let (d, r5) ← parseDay r4
  let r6 ← parseWs r5
  let (h, r7) ← parseHour r6
  let r8 ← parseLit ':' r7
  let (mi, r9) ← parseMin r8
  let r10 ← parseLit ':' r9
  let (sec, r11) ← parseSec r10
  let r12 ← parseWs r11
  let (tz, r13) ← parseTz r12
  let r14 ← parseWs r13
  let (y, r15) ← parseYear4 r14
  if r15 = [] then mkDatetime y mo d h mi sec tz else Option.none

/-- The three date formats of `filter_by_date`. -/
inductive Fmt where
  | ymdHMS
  | isoZ
  | twNative
deriving DecidableEq

/-- Dispatch `datetime.strptime(s, fmt)`. -/
def strptime : Fmt → String → Option PyDatetime
  | .ymdHMS, s => parseFmtYmdHMS s
  | .isoZ, s => parseFmtIsoZ s
  | .twNative, s => parseFmtTwNative s

/-- The format list of `filter_by_date`, in the order the source tries
them: `['%Y-%m-%d %H:%M:%S', '%Y-%m-%dT%H:%M:%S%z',
'%a %b %d %H:%M:%S %z %Y']`. -/
def dateFormats : List Fmt := [.ymdHMS, .isoZ, .twNative]

/-- The fallback chain over `dateFormats`: the first format that parses
wins; `none` when every format raises `ValueError`. -/
def parseDateStr (s : String) : Option PyDatetime :=
  dateFormats.findSome? (fun f => strptime f s)

/-- Accumulating loop shared by the three filters: process the records in
order, keep those mapped to `some`, drop those mapped to `none`, and let
a Python exception abort the whole call. -/
def exFilterMap {α : Type} (f : α → Except PyErr (Option α)) : List α → Except PyErr (List α)
  | [] => .ok []
  | a :: l => do
    match ← f a with
    | some b => return b :: (← exFilterMap f l)
    | Option.none => exFilterMap f l

/-- Longitude normalization performed by geopy's `Point` when the value
is outside `[-180, 180]`: reduce modulo 360 into `[0, 360)` (Python
float `%` follows the divisor's sign) and shift into `(-180, 180]`. -/
def wrapLon (x : ℚ) : ℚ :=
  if |x| > 180 then
    let r := x - 360 * (⌊x / 360⌋ : ℤ)
    if r > 180 then r - 360 else r
  else x

/-- Coordinate coercion of geopy's `Point`: `float(value or 0.0)`; falsy
values — including `None` — become `0.0`, and numeric strings parse. -/
def geoCoord (v : PyVal) : Except PyErr ℚ :=
  if truthy v then pyFloat v else .ok 0

/-- Construction of a geopy `Point` from the two record values: coerce
both coordinates, reject latitudes outside `[-90, 90]` with
`ValueError`, and normalize the longitude. -/
def geoPointOf (lat lon : PyVal) : Except PyErr (ℚ × ℚ) := do
  let la ← geoCoord lat
  let lo ← geoCoord lon
  if |la| > 90 then .error .valueError
  else .ok (la, wrapLon lo)

/-- Construction of a geopy `Point` from the already-numeric center
tuple `(center_lat, center_lon)`. -/
def geoPointQ (la lo : ℚ) : Except PyErr (ℚ × ℚ) :=
  if |la| > 90 then .error .valueError
  else .ok (la, wrapLon lo)

/-- Body of the `filter_by_coordinates` loop for one record.  The ellipsoidal
distance `geodesic(center, point_coords).kilometers` computed by geopy is
taken as an uninterpreted parameter `dist` over the two normalized points;
everything around it — the key-presence test `'latitude' in point and
'longitude' in point`, the `Point` coercions, the radius comparison, and
the in-place `point['distance'] = distance` — is from the source. -/
def spatialStep (dist : ℚ × ℚ → ℚ × ℚ → ℚ) (clat clon radius : ℚ) (point : PyDict) :
    Except PyErr (Option PyDict) :=
  match getKey point "latitude", getKey point "longitude" with
  | some la, some lo => do
    let c ← geoPointQ clat clon
    let p ← geoPointOf la lo
    let d := dist c p
    if d ≤ radius then return some (setKey point "distance" (.float d))
    else return Option.none
  | _, _ => return Option.none

/-- Embedding of `filter_by_coordinates(data, center_lat, center_lon,
radius_km)`, parametric in the geodesic distance function. -/
def filter_by_coordinates (dist : ℚ × ℚ → ℚ × ℚ → ℚ) (data : List PyDict)
    (clat clon radius : ℚ) : Except PyErr (List PyDict) :=
  exFilterMap (spatialStep dist clat clon radius) data

/-- First bound check `start_date and point_date < start_date` of the
`filter_by_date` loop (a `None` start short-circuits to no drop). -/
def startDrop (s : Option PyDatetime) (t : PyDatetime) : Except PyErr Bool :=
  match s with
  | some sd => pyLtDT t sd
  | Option.none => .ok false

/-- Second bound check `end_date and point_date > end_date`. -/
def endDrop (e : Option PyDatetime) (t : PyDatetime) : Except PyErr Bool :=
  match e with
  | some ed => pyGtDT t ed
  | Option.none => .ok false

/-- The two sequential bound checks applied to a parsed datetime: drop
when before the start, else drop when after the end, else keep the
record unchanged.  Either comparison can raise `TypeError` on a
naive/aware mix. -/
def dateBounds (s e : Option PyDatetime) (t : PyDatetime) (point : PyDict) :
    Except PyErr (Option PyDict) :=
  startDrop s t >>= fun drop1 =>
    if drop1 then .ok Option.none
    else endDrop e t >>= fun drop2 =>
      if drop2 then .ok Option.none else .ok (some point)

/-- Body of the `filter_by_date` loop for one record: skip records whose
`date` is absent or falsy, parse string dates through the format chain,
skip when the result is not a datetime, then apply the two bound checks.
A kept record is returned unchanged: the parsed datetime is local to the
loop. -/
def dateStep (s e : Option PyDatetime) (point : PyDict) : Except PyErr (Option PyDict) :=
  match getKey point "date" with
  | Option.none => .ok Option.none
  | some dv =>
    if ¬ truthy dv then .ok Option.none
    else
      match (match dv with
        | .str ds => parseDateStr ds
        | .dt t => some t
        | _ => Option.none) with
      | Option.none => .ok Option.none
      | some t => dateBounds s e t point

/-- Embedding of `filter_by_date(data, start_date, end_date)`: with both
bounds unset the input list is returned untouched. -/
def filter_by_date (data : List PyDict) (s e : Option PyDatetime) :
    Except PyErr (List PyDict) :=
  if s.isNone ∧ e.isNone then .ok data
  else exFilterMap (dateStep s e) data

/-- Python `value.lower()` as applied to `point.get('title', '')` and
`point.get('content', '')`: only strings have the method. -/
def lowerStrVal (v : PyVal) : Except PyErr String :=
  match v with
  | .str s => .ok (strLower s)
  | _ => .error .attributeError

/-- Body of the `filter_by_keyword` loop for one record: lowercase title
and content, join them with a space, and keep the record iff some
(already lowercased) keyword occurs as a substring. -/
def kwStep (kws : List String) (point : PyDict) : Except PyErr (Option PyDict) := do
  let t ← lowerStrVal ((getKey point "title").getD (.str ""))
  let c ← lowerStrVal ((getKey point "content").getD (.str ""))
  let text := t ++ " " ++ c
  return (if kws.any (fun k => strContains text k) then some point else Option.none)

/-- Embedding of `filter_by_keyword(data, keywords)`: an empty keyword
list short-circuits to the identity, otherwise the keywords are
lowercased once and each record is tested. -/
def filter_by_keyword (data : List PyDict) (keywords : List String) :
    Except PyErr (List PyDict) :=
  if keywords.isEmpty then .ok data
  else exFilterMap (kwStep (keywords.map strLower)) data

/-- Embedding of `merge_data_sources(data_sources)`: fold over the
per-source entries in insertion order, extending the accumulator with
each truthy (non-empty) list. -/
def merge_data_sources {α : Type} (dataSources : List (String × List α)) : List α :=
  dataSources.foldl (fun acc p => if ¬ p.2.isEmpty then acc ++ p.2 else acc) []

/-- Concrete kilometers-per-degree stand-in distance used only to
instantiate the abstract `dist` parameter inside closed witness and
counterexample statements: 111 km per degree of coordinate separation.
Like any genuine distance it is zero from a point to itself and large
between far-apart points, which is all those closed statements rely on. -/
def degDistKm (a b : ℚ × ℚ) : ℚ := 111 * (|a.1 - b.1| + |a.2 - b.2|)

/-- Evaluation of an embedded boolean expression, with a raised exception
read as `false` (used only to state conditions of records that are known
to normalize without error). -/
def exTrue (e : Except PyErr Bool) : Bool :=
  match e with
  | .ok b => b
  | .error _ => false

/-- The guard of the Twitter point-geotag branch:
`'geo' in data and data['geo'] and 'coordinates' in data['geo']`. -/
def twGeoCond (data : PyDict) : Bool :=
  match getKey data "geo" with
  | some g => truthy g && exTrue (pyContainsStr g "coordinates")
  | Option.none => false

/-- The guard of the Twitter bounding-box branch:
`'place' in data and data['place'] and 'bounding_box' in data['place']`. -/
def twPlaceCond (data : PyDict) : Bool :=
  match getKey data "place" with
  | some pl => truthy pl && exTrue (pyContainsStr pl "bounding_box")
  | Option.none => false

/-- The guard of the YouTube location branch. -/
def ytLocCond (data : PyDict) : Bool :=
  match getKey data "location" with
  | some loc => exTrue (pyContainsStr loc "latitude") && exTrue (pyContainsStr loc "longitude")
  | Option.none => false

/-- The guard of the Flickr coordinate branch. -/
def flCoordCond (data : PyDict) : Bool :=
  (getKey data "latitude").isSome && (getKey data "longitude").isSome

/-- A raw record is missing its expected geo data when the coordinate
extraction guard of its source does not fire (for an unknown source no
extraction exists at all). -/
def noGeoField (data : PyDict) (source : String) : Bool :=
  if source = "twitter" then !twGeoCond data && !twPlaceCond data
  else if source = "youtube" then !ytLocCond data
  else if source = "flickr" then !flCoordCond data
  else true

/-- The value at a list index is not Python `None` (vacuously true when
the index is absent). -/
def nonNoneAt (xs : List PyVal) (i : Nat) : Bool :=
  match xs.get? i with
  | some PyVal.none => false
  | _ => true

/-- The two entries a fired Twitter geo branch would copy are not `None`
(the branch copies raw values verbatim, so a `None` entry would land in
the canonical record unchanged). -/
def geoCoordsNonNone (data : PyDict) : Bool :=
  match getKey data "geo" with
  | some (.dict gd) =>
    match getKey gd "coordinates" with
    | some (.list xs) => nonNoneAt xs 0 && nonNoneAt xs 1
    | _ => true
  | _ => true

/-- The two values a fired YouTube location branch would copy are not
`None`. -/
def locCoordsNonNone (data : PyDict) : Bool :=
  match getKey data "location" with
  | some (.dict ld) =>
    (match getKey ld "latitude" with
     | some PyVal.none => false
     | _ => true) &&
    (match getKey ld "longitude" with
     | some PyVal.none => false
     | _ => true)
  | _ => true

/-- Well-formedness of the copied coordinate values of a raw record:
whatever the verbatim-copy branches would write is not `None` (the
Flickr branch always writes floats and needs no condition). -/
def coordWf (data : PyDict) (source : String) : Bool :=
  if source = "twitter" then geoCoordsNonNone data
  else if source = "youtube" then locCoordsNonNone data
  else true

/-- A value accepted by Python `float()`. -/
def floatable (v : PyVal) : Bool :=
  match v with
  | .int _ => true
  | .float _ => true
  | .bool _ => true
  | .str s => (parseFloatStr s).isSome
  | _ => false

/-- A value whose `pyNum` interpretation exists (int, float or bool). -/
def numLike (v : PyVal) : Bool := (pyNum v).isSome

/-- An optional value that exists and is numeric. -/
def optNumLike (o : Option PyVal) : Bool :=
  match o with
  | some a => numLike a
  | Option.none => false

/-- A bounding-box vertex the summation loop can process: a list whose
first two entries exist and are numeric. -/
def vertexOk (v : PyVal) : Bool :=
  match v with
  | .list vc => optNumLike (vc.get? 0) && optNumLike (vc.get? 1)
  | _ => false

/-- Shape conditions under which the Twitter geo value cannot raise: the
key is absent, the value falsy, or a dict whose `coordinates` entry (if
any) is a list of length at least two. -/
def wfGeo (data : PyDict) : Bool :=
  match getKey data "geo" with
  | Option.none => true
  | some g =>
    if truthy g then
      match g with
      | .dict gd =>
        match getKey gd "coordinates" with
        | Option.none => true
        | some (.list xs) => 2 ≤ xs.length
        | some _ => false
      | _ => false
    else true

/-- Shape conditions under which the Twitter place value cannot raise:
absent, falsy, or a dict whose `bounding_box` entry (if any) is a dict
with a `coordinates` list whose first ring is a non-empty list of
well-formed vertices. -/
def wfPlace (data : PyDict) : Bool :=
  match getKey data "place" with
  | Option.none => true
  | some pl =>
    if truthy pl then
      match pl with
      | .dict pd =>
        match getKey pd "bounding_box" with
        | Option.none => true
        | some (.dict bd) =>
          match getKey bd "coordinates" with
          | some (.list (ring0 :: _)) =>
            match ring0 with
            | .list ring => !ring.isEmpty && ring.all vertexOk
            | _ => false
          | _ => false
        | some _ => false
      | _ => false
    else true

/-- Shape condition for the Twitter user value: absent or a dict (it is
the receiver of `.get`). -/
def wfUser (data : PyDict) : Bool :=
  match getKey data "user" with
  | Option.none => true
  | some (.dict _) => true
  | some _ => false

/-- Shape condition for the Twitter entities value: absent, or a dict
whose truthy `media` entry (if any) is a non-empty list headed by a
dict. -/
def wfEntities (data : PyDict) : Bool :=
  match getKey data "entities" with
  | Option.none => true
  | some (.dict ed) =>
    match getKey ed "media" with
    | Option.none => true
    | some m =>
      if truthy m then
        match m with
        | .list (m0 :: _) =>
          match m0 with
          | .dict _ => true
          | _ => false
        | _ => false
      else true
  | some _ => false

/-- Shape condition for the YouTube location value: absent or a dict. -/
def wfLocation (data : PyDict) : Bool :=
  match getKey data "location" with
  | Option.none => true
  | some (.dict _) => true
  | some _ => false

/-- Shape condition for the Flickr coordinates: when both keys are
present, both values convert under `float()`. -/
def wfFlickrCoords (data : PyDict) : Bool :=
  match getKey data "latitude", getKey data "longitude" with
  | some la, some lo => floatable la && floatable lo
  | _, _ => true

/-- Shape conditions on the values of a raw record under which its
source branch runs to completion (missing keys are always fine — every
guard tolerates absence — but present values must have the shapes the
branch dereferences). -/
def wfRaw (data : PyDict) (source : String) : Bool :=
  if source = "twitter" then
    wfGeo data && wfPlace data && wfUser data && wfEntities data
  else if source = "youtube" then wfLocation data
  else if source = "flickr" then wfFlickrCoords data
  else true

/-- Lowercased `title + ' ' + content` text of a record when both values
(with their `.get` defaults) are strings, the only case in which the
keyword filter processes the record without raising. -/
def recordText (r : PyDict) : Option String :=
  match (getKey r "title").getD (.str ""), (getKey r "content").getD (.str "") with
  | .str t, .str c => some (strLower t ++ " " ++ strLower c)
  | _, _ => Option.none

/-- The geopy coordinate coercion never raises on this value. -/
def coercibleCoord (v : PyVal) : Bool :=
  match geoCoord v with
  | .ok _ => true
  | .error _ => false

/-- Total reading of the geopy coordinate coercion (0 on the error case,
which `spatialOk` rules out). -/
def coordVal (v : PyVal) : ℚ :=
  match geoCoord v with
  | .ok q => q
  | .error _ => 0

/-- A record the spatial filter processes without raising: either a
coordinate key is missing (the record is skipped before any coercion) or
both present values coerce and the resulting latitude is in range. -/
def spatialOk (r : PyDict) : Bool :=
  match getKey r "latitude", getKey r "longitude" with
  | some la, some lo => coercibleCoord la && coercibleCoord lo && decide (|coordVal la| ≤ 90)
  | _, _ => true

/-- Total description of the spatial-filter loop body for records
satisfying `spatialOk`: keep iff both keys are present and the distance
of the coerced point from the center is within the radius, attaching the
distance. -/
def spatialKeep (dist : ℚ × ℚ → ℚ × ℚ → ℚ) (clat clon radius : ℚ) (r : PyDict) :
    Option PyDict :=
  match getKey r "latitude", getKey r "longitude" with
  | some la, some lo =>
    let d := dist (clat, wrapLon clon) (coordVal la, wrapLon (coordVal lo))
    if d ≤ radius then some (setKey r "distance" (.float d)) else Option.none
  | _, _ => Option.none

/-- The temporal-filter loop body processes this record without raising
(its date comparisons, if any, do not hit a naive/aware mix). -/
def dateOk (s e : Option PyDatetime) (r : PyDict) : Bool :=
  match dateStep s e r with
  | .ok _ => true
  | .error _ => false

/-- The temporal-filter loop body keeps this record. -/
def dateKeep (s e : Option PyDatetime) (r : PyDict) : Bool :=
  match dateStep s e r with
  | .ok (some _) => true
  | _ => false

/-- The keyword filter as a pure list transformation: identity for an
empty keyword list, otherwise the filter by lowercased-text keyword
membership. -/
def kwApply (kws : List String) (l : List PyDict) : List PyDict :=
  if kws.isEmpty then l
  else l.filter (fun r => kws.any (fun k => strContains ((recordText r).getD "") (strLower k)))

/-- The temporal filter as a pure list transformation: identity when
both bounds are unset, otherwise the filter by `dateKeep`. -/
def dtApply (s e : Option PyDatetime) (l : List PyDict) : List PyDict :=
  if s.isNone ∧ e.isNone then l else l.filter (dateKeep s e)

/-- The spatial filter as a pure list transformation. -/
def spApply (dist : ℚ × ℚ → ℚ × ℚ → ℚ) (clat clon radius : ℚ)
    (l : List PyDict) : List PyDict :=
  l.filterMap (spatialKeep dist clat clon radius)

theorem getKey_cons (p : String × PyVal) (d : PyDict) (k : String) :
    getKey (p :: d) k = if p.1 = k then some p.2 else getKey d k := by
  by_cases h : p.1 = k <;> simp [getKey, List.find?, h]

theorem getKey_setKey_self (d : PyDict) (k : String) (v : PyVal) :
    getKey (setKey d k v) k = some v := by
  induction d with
  | nil => simp [setKey, getKey_cons]
  | cons p rest ih =>
    by_cases hp : p.1 = k
    · simp [setKey, hp, getKey_cons]
    · simp [setKey, hp, getKey_cons, ih]

theorem getKey_setKey_ne (d : PyDict) (k k2 : String) (v : PyVal) (h : k ≠ k2) :
    getKey (setKey d k v) k2 = getKey d k2 := by
  induction d with
  | nil => simp [setKey, getKey_cons, h, getKey]
  | cons p rest ih =>
    by_cases hp : p.1 = k
    · simp [setKey, hp, getKey_cons, h]
    · simp [setKey, hp, getKey_cons, ih]

theorem dictKeys_cons (p : String × PyVal) (d : PyDict) :
    dictKeys (p :: d) = p.1 :: dictKeys d := rfl

theorem dictKeys_setKey_mem (d : PyDict) (k : String) (v : PyVal)
    (h : k ∈ dictKeys d) : dictKeys (setKey d k v) = dictKeys d := by
  induction d with
  | nil => simp [dictKeys] at h
  | cons p rest ih =>
    by_cases hp : p.1 = k
    · simp [setKey, hp, dictKeys_cons]
    · rw [dictKeys_cons] at h
      rcases List.mem_cons.mp h with h1 | h1
      · exact absurd h1.symm hp
      · rw [setKey]
        simp only [hp, if_false, dictKeys_cons, ih h1]

theorem applyAssigns_nil (n : PyDict) : applyAssigns n [] = n := rfl

theorem applyAssigns_cons (n : PyDict) (p : RecField × PyVal) (l : List (RecField × PyVal)) :
    applyAssigns n (p :: l) = applyAssigns (setKey n p.1.key p.2) l := rfl

theorem applyAssigns_append (n : PyDict) (l1 l2 : List (RecField × PyVal)) :
    applyAssigns n (l1 ++ l2) = applyAssigns (applyAssigns n l1) l2 :=
  List.foldl_append _ _ _ _

theorem getKey_applyAssigns_ne (l : List (RecField × PyVal)) (n : PyDict) (k : String)
    (h : ∀ p ∈ l, p.1.key ≠ k) : getKey (applyAssigns n l) k = getKey n k := by
  induction l generalizing n with
  | nil => rfl
  | cons p t ih =>
    rw [applyAssigns_cons, ih _ (fun q hq => h q (List.mem_cons_of_mem _ hq))]
    exact getKey_setKey_ne _ _ _ _ (h p (List.mem_cons_self _ _))

theorem dictKeys_applyAssigns (l : List (RecField × PyVal)) (n : PyDict)
    (h : ∀ p ∈ l, p.1.key ∈ dictKeys n) : dictKeys (applyAssigns n l) = dictKeys n := by
  induction l generalizing n with
  | nil => rfl
  | cons p t ih =>
    have hd := dictKeys_setKey_mem n p.1.key p.2 (h p (List.mem_cons_self _ _))
    rw [applyAssigns_cons, ih _ (fun q hq => by
      rw [hd]; exact h q (List.mem_cons_of_mem _ hq)), hd]

theorem ebind_ok {α β : Type} (a : α) (f : α → Except PyErr β) :
    (Except.ok a >>= f) = f a := rfl

theorem ebind_error {α β : Type} (e : PyErr) (f : α → Except PyErr β) :
    ((Except.error e : Except PyErr α) >>= f) = Except.error e := rfl

theorem emap_ok {α β : Type} (g : α → β) (a : α) :
    (g <$> (Except.ok a : Except PyErr α)) = Except.ok (g a) := rfl

theorem emap_error {α β : Type} (g : α → β) (e : PyErr) :
    (g <$> (Except.error e : Except PyErr α)) = Except.error e := rfl

theorem exFilterMap_congr_ok {α : Type} (f : α → Except PyErr (Option α)) (g : α → Option α) :
    ∀ l : List α, (∀ a ∈ l, f a = .ok (g a)) → exFilterMap f l = .ok (l.filterMap g) := by
  intro l
  induction l with
  | nil => intro _; rfl
  | cons a t ih =>
    intro h
    have ha := h a (List.mem_cons_self _ _)
    have ht := ih (fun b hb => h b (List.mem_cons_of_mem _ hb))
    cases hg : g a with
    | none =>
      rw [hg] at ha
      simp [exFilterMap, ha, ht, List.filterMap_cons, hg, ebind_ok]
    | some b =>
      rw [hg] at ha
      simp [exFilterMap, ha, ht, List.filterMap_cons, hg, ebind_ok]

theorem exFilterMap_mem {α : Type} (f : α → Except PyErr (Option α)) :
    ∀ (l out : List α), exFilterMap f l = .ok out → ∀ b ∈ out, ∃ a ∈ l, f a = .ok (some b) := by
  intro l
  induction l with
  | nil =>
    intro out h b hb
    simp only [exFilterMap] at h
    cases h
    cases hb
  | cons a t ih =>
    intro out h b hb
    cases hfa : f a with
    | error e => rw [exFilterMap, hfa, ebind_error] at h; cases h
    | ok o =>
      cases o with
      | none =>
        rw [exFilterMap, hfa, ebind_ok] at h
        obtain ⟨a2, ha2, hfa2⟩ := ih out h b hb
        exact ⟨a2, List.mem_cons_of_mem _ ha2, hfa2⟩
      | some b0 =>
        cases hft : exFilterMap f t with
        | error e => rw [exFilterMap, hfa, ebind_ok] at h; simp [hft] at h
        | ok out0 =>
          rw [exFilterMap, hfa, ebind_ok] at h
          simp only [hft, emap_ok] at h
          have hout : out = b0 :: out0 := by
            cases h
            rfl
          subst hout
          rcases List.mem_cons.mp hb with hb1 | hb1
          · exact ⟨a, List.mem_cons_self _ _, by rw [hfa, hb1]⟩
          · obtain ⟨a2, ha2, hfa2⟩ := ih out0 hft b hb1
            exact ⟨a2, List.mem_cons_of_mem _ ha2, hfa2⟩

theorem filterMap_ite_eq_filter {α : Type} (p : α → Bool) (l : List α) :
    l.filterMap (fun a => if p a then some a else Option.none) = l.filter p := by
  induction l with
  | nil => rfl
  | cons a t ih =>
    by_cases h : p a <;> simp [List.filterMap_cons, List.filter_cons, h, ih]

theorem filter_swap {α : Type} (p q : α → Bool) (l : List α) :
    (l.filter p).filter q = (l.filter q).filter p := by
  induction l with
  | nil => rfl
  | cons a t ih =>
    by_cases hp : p a <;> by_cases hq : q a <;>
      simp [List.filter_cons, hp, hq, ih]

theorem filterMap_filter_comm {α : Type} (g : α → Option α) (p : α → Bool)
    (hp : ∀ a b, g a = some b → p b = p a) (l : List α) :
    (l.filterMap g).filter p = (l.filter p).filterMap g := by
  induction l with
  | nil => rfl
  | cons a t ih =>
    cases hg : g a with
    | none =>
      by_cases hpa : p a <;>
        simp [List.filterMap_cons, List.filter_cons, hg, hpa, ih]
    | some b =>
      have hb := hp a b hg
      by_cases hpa : p a <;>
        simp [List.filterMap_cons, List.filter_cons, hg, hpa, hb, ih]

theorem pySum_floats_aux (qs : List ℚ) (acc : ℚ) :
    (qs.map (fun q => PyVal.float q)).foldlM pyAdd (PyVal.float acc)
      = .ok (.float (acc + qs.sum)) := by
  induction qs generalizing acc with
  | nil => simp [List.foldlM, pure, Except.pure]
  | cons q t ih =>
    have hstep : pyAdd (PyVal.float acc) (PyVal.float q) = .ok (.float (acc + q)) := by
      simp [pyAdd, pyNum]
    simp [List.foldlM_cons, hstep, ebind_ok, ih, add_assoc]

theorem pySum_floats (qs : List ℚ) (h : qs ≠ []) :
    pySum (qs.map (fun q => PyVal.float q)) = .ok (.float qs.sum) := by
  cases qs with
  | nil => exact absurd rfl h
  | cons q t =>
    have hstep : pyAdd (PyVal.int 0) (PyVal.float q) = .ok (.float (0 + q)) := by
      simp [pyAdd, pyNum]
    simp [pySum, List.foldlM_cons, hstep, ebind_ok, pySum_floats_aux, add_assoc]

theorem exMapM_vertex_snd (vs : List (ℚ × ℚ)) :
    exMapM (fun c => pyIndexNat c 1) (vs.map (fun p => PyVal.list [.float p.1, .float p.2]))
      = .ok (vs.map (fun p => PyVal.float p.2)) := by
  induction vs with
  | nil => rfl
  | cons p t ih =>
    have hstep : pyIndexNat (PyVal.list [PyVal.float p.1, PyVal.float p.2]) 1
        = .ok (PyVal.float p.2) := rfl
    simp only [List.map_cons, exMapM, hstep, ebind_ok, ih]
    rfl

theorem exMapM_vertex_fst (vs : List (ℚ × ℚ)) :
    exMapM (fun c => pyIndexNat c 0) (vs.map (fun p => PyVal.list [.float p.1, .float p.2]))
      = .ok (vs.map (fun p => PyVal.float p.1)) := by
  induction vs with
  | nil => rfl
  | cons p t ih =>
    have hstep : pyIndexNat (PyVal.list [PyVal.float p.1, PyVal.float p.2]) 0
        = .ok (PyVal.float p.1) := rfl
    simp only [List.map_cons, exMapM, hstep, ebind_ok, ih]
    rfl

theorem merge_foldl_aux {α : Type} :
    ∀ (l : List (String × List α)) (init : List α),
      l.foldl (fun acc p => if ¬ p.2.isEmpty then acc ++ p.2 else acc) init
        = init ++ (l.map (fun p => p.2)).flatten := by
  intro l
  induction l with
  | nil => intro init; simp
  | cons p t ih =>
    intro init
    rw [List.foldl_cons, ih, List.map_cons, List.flatten_cons]
    by_cases hp : p.2.isEmpty
    · have hnil : p.2 = [] := by
        cases hq : p.2 with
        | nil => rfl
        | cons x xs => rw [hq] at hp; cases hp
      simp [hnil]
    · simp [hp, List.append_assoc]

/-- C7: `merge_data_sources` concatenates the per-source canonical lists
in source order then per-source order, with no re-sorting and no
deduplication; in particular merging two sources equals the
concatenation of merging each alone. -/
theorem merge_data_sources_concat (l : List (String × List PyDict))
    (a b : String × List PyDict) :
    merge_data_sources l = (l.map (fun p => p.2)).flatten ∧
    merge_data_sources [a, b] = merge_data_sources [a] ++ merge_data_sources [b] := by
  constructor
  · simpa [merge_data_sources] using merge_foldl_aux l []
  · have h1 := merge_foldl_aux [a, b] ([] : List PyDict)
    have h2 := merge_foldl_aux [a] ([] : List PyDict)
    have h3 := merge_foldl_aux [b] ([] : List PyDict)
    simp only [merge_data_sources, h1, h2, h3, List.map_cons, List.map_nil]
    simp

theorem kwStep_eval (kws : List String) (r : PyDict) (txt : String)
    (h : recordText r = some txt) :
    kwStep kws r = .ok (if kws.any (fun k => strContains txt k) then some r else Option.none) := by
  unfold recordText at h
  unfold kwStep
  cases h1 : (getKey r "title").getD (.str "") with
  | str t =>
    cases h2 : (getKey r "content").getD (.str "") with
    | str c =>
      rw [h1, h2] at h
      have htxt : txt = strLower t ++ " " ++ strLower c := by
        cases h
        rfl
      simp [h1, h2, lowerStrVal, ebind_ok, htxt]
    | _ => rw [h1, h2] at h; cases h
  | _ =>
    rw [h1] at h
    cases h1x : (getKey r "content").getD (.str "") <;> rw [h1x] at h <;> cases h

/-- C5: the keyword filter keeps a record iff the lowercased
`title + ' ' + content` text contains at least one lowercased keyword as
a substring (OR semantics), and an empty keyword set makes the filter
the identity. -/
theorem filter_by_keyword_spec (data : List PyDict) (kws : List String)
    (h : ∀ r ∈ data, (recordText r).isSome = true) :
    filter_by_keyword data [] = .ok data ∧
    (kws ≠ [] →
      filter_by_keyword data kws = .ok (data.filter (fun r =>
        kws.any (fun k => strContains ((recordText r).getD "") (strLower k))))) := by
  refine ⟨rfl, fun hne => ?_⟩
  have hemp : kws.isEmpty = false := by
    cases kws with
    | nil => exact absurd rfl hne
    | cons x xs => rfl
  rw [filter_by_keyword, hemp]
  simp only [Bool.false_eq_true, if_false]
  rw [exFilterMap_congr_ok (kwStep (kws.map strLower))
    (fun r => if kws.any (fun k => strContains ((recordText r).getD "") (strLower k))
      then some r else Option.none) data ?hstep]
  · rw [filterMap_ite_eq_filter]
  case hstep =>
    intro r hr
    obtain ⟨txt, htxt⟩ := Option.isSome_iff_exists.mp (h r hr)
    show kwStep (kws.map strLower) r
      = .ok (if kws.any (fun k => strContains ((recordText r).getD "") (strLower k))
          then some r else Option.none)
    rw [kwStep_eval (kws.map strLower) r txt htxt, htxt]
    have hany : (kws.map strLower).any (fun k => strContains txt k)
        = kws.any (fun k => strContains txt (strLower k)) := by
      rw [List.any_map]
      rfl
    simp [hany]

/-- C4 counterexample: the source tries the space-separated format
`'%Y-%m-%d %H:%M:%S'` first, not the ISO-8601-with-offset format, so the
claimed priority order (ISO first) is not the code's order. -/
theorem dateFormats_order_counterexample :
    dateFormats ≠ [Fmt.isoZ, Fmt.ymdHMS, Fmt.twNative] := by decide

/-- C4 amended: the temporal filter tries the formats in the order
space-separated `'%Y-%m-%d %H:%M:%S'`, then ISO-8601 with offset, then
Twitter's native timestamp; the first format that parses wins, and a
record whose date string defeats every format is dropped (when a bound
is set) without raising. -/
theorem filter_by_date_format_chain (s e : Option PyDatetime) (r : PyDict)
    (rest : List PyDict) (ds : String)
    (hbound : s.isSome ∨ e.isSome)
    (hdate : getKey r "date" = some (.str ds))
    (hfail : parseDateStr ds = Option.none) :
    dateFormats = [Fmt.ymdHMS, Fmt.isoZ, Fmt.twNative] ∧
    (∀ (s2 : String) (t2 : PyDatetime),
      strptime Fmt.ymdHMS s2 = some t2 → parseDateStr s2 = some t2) ∧
    filter_by_date (r :: rest) s e = filter_by_date rest s e := by
  refine ⟨rfl, fun s2 t2 h2 => ?_, ?_⟩
  · simp [parseDateStr, dateFormats, List.findSome?_cons, h2]
  · have hnb : (s.isNone ∧ e.isNone) = False := by
      rcases hbound with hb | hb <;> cases s <;> cases e <;> simp_all
    have hstep : dateStep s e r = .ok Option.none := by
      rw [dateStep, hdate]
      by_cases hds : ds = ""
      · simp [truthy, hds, pure, Except.pure]
      · simp [truthy, hds, hfail, pure, Except.pure]
    rw [filter_by_date, filter_by_date]
    simp only [hnb, if_false]
    rw [exFilterMap, hstep, ebind_ok]

theorem pyDiv_float_int (S : ℚ) (n : Nat) (h : n ≠ 0) :
    pyDiv (.float S) (.int n) = .ok (.float (S / (n : ℚ))) := by
  have h1 : (((n : ℤ) : ℚ)) = (n : ℚ) := by push_cast; rfl
  have h2 : ((n : ℚ)) ≠ 0 := Nat.cast_ne_zero.mpr h
  simp [pyDiv, pyNum, h1, h2]

/-- Raw micro-blog record carrying only a bounding-box place whose ring
has the given `[lon, lat]` vertices, and no point geotag. -/
def mkBBoxTweet (vs : List (ℚ × ℚ)) : PyDict :=
  [("place", .dict [("bounding_box", .dict [("coordinates",
      .list [.list (vs.map (fun p => PyVal.list [.float p.1, .float p.2]))])])])]

/-- C6: normalizing a Twitter record with no point geotag and a
bounding-box place sets latitude and longitude to the arithmetic mean of
the ring's vertex latitudes and longitudes (plain vertex mean, not a
polygon centroid). -/
theorem normalize_bbox_mean (vs : List (ℚ × ℚ)) (h : vs ≠ []) :
    ∃ r, normalize_data (mkBBoxTweet vs) "twitter" = .ok r ∧
      getKey r "latitude" = some (.float ((vs.map Prod.snd).sum / (vs.length : ℚ))) ∧
      getKey r "longitude" = some (.float ((vs.map Prod.fst).sum / (vs.length : ℚ))) := by
  obtain ⟨p0, t0, rfl⟩ : ∃ p0 t0, vs = p0 :: t0 := by
    cases vs with
    | nil => exact absurd rfl h
    | cons a l => exact ⟨a, l, rfl⟩
  have hlat := exMapM_vertex_snd (p0 :: t0)
  have hlon := exMapM_vertex_fst (p0 :: t0)
  have hlatsum : pySum ((p0 :: t0).map (fun p => PyVal.float p.2))
      = .ok (.float (((p0 :: t0).map Prod.snd).sum)) := by
    have h2 := pySum_floats ((p0 :: t0).map Prod.snd) (by simp)
    rw [List.map_map] at h2
    exact h2
  have hlonsum : pySum ((p0 :: t0).map (fun p => PyVal.float p.1))
      = .ok (.float (((p0 :: t0).map Prod.fst).sum)) := by
    have h2 := pySum_floats ((p0 :: t0).map Prod.fst) (by simp)
    rw [List.map_map] at h2
    exact h2
  have hlen : pyLen (.list ((p0 :: t0).map (fun p => PyVal.list [.float p.1, .float p.2])))
      = .ok ((p0 :: t0).length) := by
    simp [pyLen]
  have hdivlat := pyDiv_float_int (((p0 :: t0).map Prod.snd).sum) ((p0 :: t0).length) (by simp)
  have hdivlon := pyDiv_float_int (((p0 :: t0).map Prod.fst).sum) ((p0 :: t0).length) (by simp)
  have hpre : twPlaceAssigns (mkBBoxTweet (p0 :: t0)) = (do
      let lats ← exMapM (fun c => pyIndexNat c 1)
        ((p0 :: t0).map (fun p => PyVal.list [.float p.1, .float p.2]))
      let latSum ← pySum lats
      let lons ← exMapM (fun c => pyIndexNat c 0)
        ((p0 :: t0).map (fun p => PyVal.list [.float p.1, .float p.2]))
      let lonSum ← pySum lons
      let n ← pyLen (.list ((p0 :: t0).map (fun p => PyVal.list [.float p.1, .float p.2])))
      let lat ← pyDiv latSum (.int n)
      let lon ← pyDiv lonSum (.int n)
      return [(RecField.latitude, lat), (RecField.longitude, lon)]) := rfl
  have hplace : twPlaceAssigns (mkBBoxTweet (p0 :: t0))
      = .ok [(RecField.latitude,
                .float (((p0 :: t0).map Prod.snd).sum / ((p0 :: t0).length : ℚ))),
             (RecField.longitude,
                .float (((p0 :: t0).map Prod.fst).sum / ((p0 :: t0).length : ℚ)))] := by
    rw [hpre, hlat, ebind_ok, hlatsum, ebind_ok, hlon, ebind_ok, hlonsum, ebind_ok,
      hlen, ebind_ok, hdivlat, ebind_ok, hdivlon, ebind_ok]
    rfl
  have hgeo : twGeoAssigns (mkBBoxTweet (p0 :: t0))
      = twPlaceAssigns (mkBBoxTweet (p0 :: t0)) := rfl
  have hassigns : twitterAssigns (mkBBoxTweet (p0 :: t0))
      = .ok [(RecField.latitude,
                .float (((p0 :: t0).map Prod.snd).sum / ((p0 :: t0).length : ℚ))),
             (RecField.longitude,
                .float (((p0 :: t0).map Prod.fst).sum / ((p0 :: t0).length : ℚ))),
             (RecField.title, .str "@"), (RecField.content, .str "")] := by
    rw [twitterAssigns, hgeo, hplace, ebind_ok]
    rfl
  have hnorm : normalize_data (mkBBoxTweet (p0 :: t0)) "twitter"
      = twitterAssigns (mkBBoxTweet (p0 :: t0)) >>= fun assigns =>
          pure (applyAssigns (initNormalized (mkBBoxTweet (p0 :: t0)) "twitter") assigns) := rfl
  refine ⟨applyAssigns (initNormalized (mkBBoxTweet (p0 :: t0)) "twitter")
      [(RecField.latitude,
          .float (((p0 :: t0).map Prod.snd).sum / ((p0 :: t0).length : ℚ))),
       (RecField.longitude,
          .float (((p0 :: t0).map Prod.fst).sum / ((p0 :: t0).length : ℚ))),
       (RecField.title, .str "@"), (RecField.content, .str "")], ?_, ?_, ?_⟩
  · rw [hnorm, hassigns, ebind_ok]
    rfl
  · rfl
  · rfl

/-- C6 witness: the bounding box ring
`[[2.0,48.0],[2.0,49.0],[3.0,49.0],[3.0,48.0]]` normalizes to
latitude 48.5 and longitude 2.5. -/
theorem normalize_bbox_mean_witness :
    (normalize_data (mkBBoxTweet [(2, 48), (2, 49), (3, 49), (3, 48)]) "twitter").map
        (fun r => (getKey r "latitude", getKey r "longitude"))
      = .ok (some (.float (48.5 : ℚ)), some (.float (2.5 : ℚ))) := by
  obtain ⟨r, h1, h2, h3⟩ := normalize_bbox_mean [(2, 48), (2, 49), (3, 49), (3, 48)]
    (by simp)
  rw [h1]
  have e2 : (([((2 : ℚ), (48 : ℚ)), (2, 49), (3, 49), (3, 48)].map Prod.snd).sum
      / (([((2 : ℚ), (48 : ℚ)), (2, 49), (3, 49), (3, 48)].length : ℚ)) : ℚ) = 48.5 := by
    norm_num
  have e3 : (([((2 : ℚ), (48 : ℚ)), (2, 49), (3, 49), (3, 48)].map Prod.fst).sum
      / (([((2 : ℚ), (48 : ℚ)), (2, 49), (3, 49), (3, 48)].length : ℚ)) : ℚ) = 2.5 := by
    norm_num
  rw [e2] at h2
  rw [e3] at h3
  simp [Except.map, h2, h3]

/-- C10: whenever `normalize_data` returns, the result is a dict with
exactly the nine canonical keys in skeleton order, its `source` is the
given tag and `raw_data` the original input; an unrecognized source tag
leaves every other field at its default. -/
theorem normalize_schema (data : PyDict) (source : String) (r : PyDict)
    (h : normalize_data data source = .ok r) :
    dictKeys r = ["source", "latitude", "longitude", "title", "content",
      "date", "url", "image_url", "raw_data"] ∧
    getKey r "source" = some (.str source) ∧
    getKey r "raw_data" = some (.dict data) ∧
    (source ∉ (["twitter", "youtube", "flickr"] : List String) →
      r = initNormalized data source) := by
  rw [normalize_data] at h
  cases ha : sourceAssigns data source with
  | error e =>
    rw [ha, ebind_error] at h
    cases h
  | ok assigns =>
    rw [ha, ebind_ok] at h
    have hr : r = applyAssigns (initNormalized data source) assigns := by
      cases h
      rfl
    have hkeys : ∀ f : RecField, f.key ∈ dictKeys (initNormalized data source) := by
      intro f
      cases f <;> simp [initNormalized, dictKeys, RecField.key]
    have hinit : dictKeys (initNormalized data source)
        = ["source", "latitude", "longitude", "title", "content",
           "date", "url", "image_url", "raw_data"] := rfl
    refine ⟨?_, ?_, ?_, ?_⟩
    · rw [hr, dictKeys_applyAssigns assigns _ (fun p _ => hkeys p.1), hinit]
    · rw [hr, getKey_applyAssigns_ne assigns _ _ (fun p _ => by
        cases hp : p.1 <;> simp [RecField.key])]
      rfl
    · rw [hr, getKey_applyAssigns_ne assigns _ _ (fun p _ => by
        cases hp : p.1 <;> simp [RecField.key])]
      rfl
    · intro hsrc
      have h1 : source ≠ "twitter" := by intro hx; exact hsrc (by simp [hx])
      have h2 : source ≠ "youtube" := by intro hx; exact hsrc (by simp [hx])
      have h3 : source ≠ "flickr" := by intro hx; exact hsrc (by simp [hx])
      rw [sourceAssigns, if_neg h1, if_neg h2, if_neg h3] at ha
      have : assigns = [] := by
        cases ha
        rfl
      rw [hr, this, applyAssigns_nil]

/-- C10 witness: an unrecognized source tag (here the encyclopedia tag,
which the function does not handle) yields the untouched skeleton with
the nine keys, the stamped source and the raw payload. -/
theorem normalize_schema_witness :
    normalize_data [] "wikipedia" = .ok (initNormalized [] "wikipedia") ∧
    dictKeys (initNormalized [] "wikipedia")
      = ["source", "latitude", "longitude", "title", "content", "date", "url",
         "image_url", "raw_data"] :=
  ⟨rfl, (normalize_schema [] "wikipedia" (initNormalized [] "wikipedia") rfl).1⟩

theorem exMapM_ok_of_all {α β : Type} (f : α → Except PyErr β) (P : β → Bool) :
    ∀ l : List α, (∀ a ∈ l, ∃ b, f a = .ok b ∧ P b = true) →
      ∃ out, exMapM f l = .ok out ∧ ∀ b ∈ out, P b = true := by
  intro l
  induction l with
  | nil => intro _; exact ⟨[], rfl, by intro b hb; cases hb⟩
  | cons a t ih =>
    intro h
    obtain ⟨b, hb, hPb⟩ := h a (List.mem_cons_self _ _)
    obtain ⟨out, hout, hPout⟩ := ih (fun x hx => h x (List.mem_cons_of_mem _ hx))
    refine ⟨b :: out, ?_, ?_⟩
    · rw [exMapM, hb, ebind_ok, hout, ebind_ok]
      rfl
    · intro c hc
      rcases List.mem_cons.mp hc with hc1 | hc1
      · rw [hc1]; exact hPb
      · exact hPout c hc1

theorem vertex_index_ok (v : PyVal) (hv : vertexOk v = true) (i : Nat)
    (hi : i = 0 ∨ i = 1) :
    ∃ b, pyIndexNat v i = .ok b ∧ numLike b = true := by
  cases v with
  | list vc =>
    rw [vertexOk] at hv
    simp only [Bool.and_eq_true] at hv
    obtain ⟨h0, h1⟩ := hv
    cases he0 : vc.get? 0 with
    | none => rw [he0] at h0; cases h0
    | some a =>
      cases he1 : vc.get? 1 with
      | none => rw [he1] at h1; cases h1
      | some b =>
        rw [he0] at h0
        rw [he1] at h1
        rw [optNumLike] at h0 h1
        rw [List.get?_eq_getElem?] at he0 he1
        rcases hi with hi | hi <;> subst hi
        · exact ⟨a, by simp [pyIndexNat, he0], h0⟩
        · exact ⟨b, by simp [pyIndexNat, he1], h1⟩
  | none => simp [vertexOk] at hv
  | bool b => simp [vertexOk] at hv
  | int n => simp [vertexOk] at hv
  | float q => simp [vertexOk] at hv
  | str s => simp [vertexOk] at hv
  | dict d => simp [vertexOk] at hv
  | dt t => simp [vertexOk] at hv

theorem pyAdd_numLike (a b : PyVal) (ha : numLike a = true) (hb : numLike b = true) :
    ∃ c, pyAdd a b = .ok c ∧ numLike c = true := by
  rw [numLike] at ha hb
  obtain ⟨fa, hfa⟩ := Option.isSome_iff_exists.mp ha
  obtain ⟨fb, hfb⟩ := Option.isSome_iff_exists.mp hb
  by_cases hf : fa.1 ∨ fb.1
  · exact ⟨.float (fa.2 + fb.2), by simp [pyAdd, hfa, hfb, hf], rfl⟩
  · exact ⟨.int ⌊fa.2 + fb.2⌋, by simp [pyAdd, hfa, hfb, hf], rfl⟩

theorem pySum_ok_aux (l : List PyVal) :
    ∀ acc : PyVal, numLike acc = true → (∀ v ∈ l, numLike v = true) →
      ∃ w, l.foldlM pyAdd acc = .ok w ∧ numLike w = true := by
  induction l with
  | nil => intro acc hacc _; exact ⟨acc, rfl, hacc⟩
  | cons v t ih =>
    intro acc hacc h
    obtain ⟨c, hc, hcn⟩ := pyAdd_numLike acc v hacc (h v (List.mem_cons_self _ _))
    obtain ⟨w, hw, hwn⟩ := ih c hcn (fun x hx => h x (List.mem_cons_of_mem _ hx))
    exact ⟨w, by rw [List.foldlM_cons, hc, ebind_ok, hw], hwn⟩

theorem pySum_ok (l : List PyVal) (h : ∀ v ∈ l, numLike v = true) :
    ∃ w, pySum l = .ok w ∧ numLike w = true :=
  pySum_ok_aux l (.int 0) rfl h

theorem pyDiv_ok (a : PyVal) (m : Nat) (ha : numLike a = true) (hm : m ≠ 0) :
    ∃ q : ℚ, pyDiv a (.int m) = .ok (.float q) := by
  rw [numLike] at ha
  obtain ⟨fa, hfa⟩ := Option.isSome_iff_exists.mp ha
  have hz : (((m : ℤ) : ℚ)) ≠ 0 := by
    push_cast
    exact Nat.cast_ne_zero.mpr hm
  have hb : pyNum (.int (m : ℤ)) = some (false, ((m : ℤ) : ℚ)) := rfl
  exact ⟨fa.2 / ((m : ℤ) : ℚ), by rw [pyDiv, hfa, hb]; simp [hz, hm]⟩

theorem twPlaceAssigns_ok (data : PyDict) (hwf : wfPlace data = true) :
    ∃ l, twPlaceAssigns data = .ok l := by
  rw [wfPlace] at hwf
  rw [twPlaceAssigns]
  cases hpl : getKey data "place" with
  | none => exact ⟨[], rfl⟩
  | some pl =>
    by_cases ht : truthy pl
    · rw [hpl] at hwf
      dsimp only at hwf ⊢
      rw [if_pos ht] at hwf ⊢
      cases pl with
      | dict pd =>
        first
                      | dsimp only at hwf
                      | skip
        have hcb : pyContainsStr (.dict pd) "bounding_box"
            = .ok (getKey pd "bounding_box").isSome := rfl
        rw [hcb, ebind_ok]
        cases hbb : getKey pd "bounding_box" with
        | none => exact ⟨[], rfl⟩
        | some bb =>
          rw [hbb] at hwf
          first
                      | dsimp only at hwf
                      | skip
          simp only [Option.isSome_some]
          rw [if_true]
          cases bb with
          | dict bd =>
            first
                      | dsimp only at hwf
                      | skip
            have hix : pyIndexStr (.dict pd) "bounding_box" = .ok (.dict bd) := by
              simp [pyIndexStr, hbb]
            rw [hix, ebind_ok]
            cases hco : getKey bd "coordinates" with
            | none => rw [hco] at hwf; cases hwf
            | some co =>
              rw [hco] at hwf
              first
                      | dsimp only at hwf
                      | skip
              have hix2 : pyIndexStr (.dict bd) "coordinates" = .ok co := by
                simp [pyIndexStr, hco]
              rw [hix2, ebind_ok]
              cases co with
              | list rings =>
                cases rings with
                | nil => cases hwf
                | cons ring0 rrest =>
                  first
                      | dsimp only at hwf
                      | skip
                  have hix3 : pyIndexNat (.list (ring0 :: rrest)) 0 = .ok ring0 := rfl
                  rw [hix3, ebind_ok]
                  cases ring0 with
                  | list ring =>
                    first
                      | dsimp only at hwf
                      | skip
                    have hiter : pyIter (.list ring) = .ok ring := rfl
                    rw [hiter, ebind_ok]
                    simp only [Bool.and_eq_true] at hwf
                    obtain ⟨hne, hall⟩ := hwf
                    have hvert : ∀ v ∈ ring, vertexOk v = true :=
                      fun v hv => List.all_eq_true.mp hall v hv
                    obtain ⟨lats, hlats, hlatsP⟩ :=
                      exMapM_ok_of_all (fun c => pyIndexNat c 1) numLike ring
                        (fun v hv => vertex_index_ok v (hvert v hv) 1 (Or.inr rfl))
                    rw [hlats, ebind_ok]
                    obtain ⟨latS, hlatS, hlatSn⟩ := pySum_ok lats hlatsP
                    rw [hlatS, ebind_ok]
                    obtain ⟨lons, hlons, hlonsP⟩ :=
                      exMapM_ok_of_all (fun c => pyIndexNat c 0) numLike ring
                        (fun v hv => vertex_index_ok v (hvert v hv) 0 (Or.inl rfl))
                    rw [hlons, ebind_ok]
                    obtain ⟨lonS, hlonS, hlonSn⟩ := pySum_ok lons hlonsP
                    rw [hlonS, ebind_ok]
                    have hlenq : pyLen (.list ring) = .ok ring.length := rfl
                    rw [hlenq, ebind_ok]
                    have hrne : ring.length ≠ 0 := by
                      cases ring with
                      | nil => cases hne
                      | cons x xs => simp
                    obtain ⟨qa, hqa⟩ := pyDiv_ok latS ring.length hlatSn hrne
                    rw [hqa, ebind_ok]
                    obtain ⟨qb, hqb⟩ := pyDiv_ok lonS ring.length hlonSn hrne
                    rw [hqb, ebind_ok]
                    exact ⟨_, rfl⟩
                  | none => cases hwf
                  | bool b => cases hwf
                  | int n => cases hwf
                  | float q => cases hwf
                  | str s => cases hwf
                  | dict d2 => cases hwf
                  | dt t => cases hwf
              | none => cases hwf
              | bool b => cases hwf
              | int n => cases hwf
              | float q => cases hwf
              | str s => cases hwf
              | dict d2 => cases hwf
              | dt t => cases hwf
          | none => cases hwf
          | bool b => cases hwf
          | int n => cases hwf
          | float q => cases hwf
          | str s => cases hwf
          | list xs => cases hwf
          | dt t => cases hwf
      | none => cases hwf
      | bool b => cases hwf
      | int n => cases hwf
      | float q => cases hwf
      | str s => cases hwf
      | list xs => cases hwf
      | dt t => cases hwf
    · dsimp only
      rw [if_neg ht]
      exact ⟨[], rfl⟩

theorem twGeoAssigns_ok (data : PyDict) (hg : wfGeo data = true)
    (hp : wfPlace data = true) : ∃ l, twGeoAssigns data = .ok l := by
  rw [wfGeo] at hg
  rw [twGeoAssigns]
  cases hgeo : getKey data "geo" with
  | none => exact twPlaceAssigns_ok data hp
  | some g =>
    rw [hgeo] at hg
    dsimp only at hg ⊢
    by_cases ht : truthy g
    · rw [if_pos ht] at hg ⊢
      cases g with
      | dict gd =>
        dsimp only at hg
        have hcc : pyContainsStr (.dict gd) "coordinates"
            = .ok (getKey gd "coordinates").isSome := rfl
        rw [hcc, ebind_ok]
        cases hco : getKey gd "coordinates" with
        | none =>
          simp only [Option.isSome_none, Bool.false_eq_true, if_false]
          exact twPlaceAssigns_ok data hp
        | some co =>
          rw [hco] at hg
          simp only [Option.isSome_some, if_true]
          cases co with
          | list xs =>
            dsimp only at hg
            have hlen : 2 ≤ xs.length := by
              simpa using hg
            obtain ⟨a, b, rest, rfl⟩ : ∃ a b rest, xs = a :: b :: rest := by
              cases xs with
              | nil => simp at hlen
              | cons a t =>
                cases t with
                | nil => simp at hlen
                | cons b rest => exact ⟨a, b, rest, rfl⟩
            have hix : pyIndexStr (.dict gd) "coordinates"
                = .ok (.list (a :: b :: rest)) := by
              simp [pyIndexStr, hco]
            rw [hix, ebind_ok]
            have h0 : pyIndexNat (.list (a :: b :: rest)) 0 = .ok a := rfl
            have h1 : pyIndexNat (.list (a :: b :: rest)) 1 = .ok b := rfl
            rw [h0, ebind_ok, h1, ebind_ok]
            exact ⟨_, rfl⟩
          | none => cases hg
          | bool b2 => cases hg
          | int n => cases hg
          | float q => cases hg
          | str s => cases hg
          | dict d2 => cases hg
          | dt t => cases hg
      | none => cases hg
      | bool b2 => cases hg
      | int n => cases hg
      | float q => cases hg
      | str s => cases hg
      | list xs => cases hg
      | dt t => cases hg
    · rw [if_neg ht]
      exact twPlaceAssigns_ok data hp

theorem twTitleAssign_ok (data : PyDict) (hu : wfUser data = true) :
    ∃ l, twTitleAssign data = .ok l := by
  rw [wfUser] at hu
  rw [twTitleAssign]
  cases huk : getKey data "user" with
  | none => exact ⟨_, rfl⟩
  | some u =>
    rw [huk] at hu
    first
    | dsimp only at hu ⊢
    | dsimp only at hu
    | dsimp only
    | skip
    cases u with
    | dict ud =>
      simp only [Option.getD_some]
      have hget : pyGetD (.dict ud) "screen_name" (.str "")
          = .ok ((getKey ud "screen_name").getD (.str "")) := rfl
      rw [hget, ebind_ok]
      exact ⟨_, rfl⟩
    | none => cases hu
    | bool b2 => cases hu
    | int n => cases hu
    | float q => cases hu
    | str s => cases hu
    | list xs => cases hu
    | dt t => cases hu

theorem twUrlAssign_ok (data : PyDict) (hu : wfUser data = true) :
    ∃ l, twUrlAssign data = .ok l := by
  rw [wfUser] at hu
  rw [twUrlAssign]
  cases hik : getKey data "id_str" with
  | none => exact ⟨[], rfl⟩
  | some ids =>
    dsimp only
    cases huk : getKey data "user" with
    | none => exact ⟨[], rfl⟩
    | some u =>
      rw [huk] at hu
      dsimp only at hu ⊢
      cases u with
      | dict ud =>
        have hcs : pyContainsStr (.dict ud) "screen_name"
            = .ok (getKey ud "screen_name").isSome := rfl
        rw [hcs, ebind_ok]
        cases hsn : getKey ud "screen_name" with
        | none =>
          simp only [Option.isSome_none, Bool.false_eq_true, if_false]
          exact ⟨[], rfl⟩
        | some sv =>
          simp only [Option.isSome_some, if_true]
          have hix : pyIndexStr (.dict ud) "screen_name" = .ok sv := by
            simp [pyIndexStr, hsn]
          rw [hix, ebind_ok]
          exact ⟨_, rfl⟩
      | none => cases hu
      | bool b2 => cases hu
      | int n => cases hu
      | float q => cases hu
      | str s => cases hu
      | list xs => cases hu
      | dt t => cases hu

theorem twMediaAssign_ok (data : PyDict) (he : wfEntities data = true) :
    ∃ l, twMediaAssign data = .ok l := by
  rw [wfEntities] at he
  rw [twMediaAssign]
  cases hek : getKey data "entities" with
  | none => exact ⟨[], rfl⟩
  | some ents =>
    rw [hek] at he
    dsimp only at he ⊢
    cases ents with
    | dict ed =>
      dsimp only at he
      have hcm : pyContainsStr (.dict ed) "media"
          = .ok (getKey ed "media").isSome := rfl
      rw [hcm, ebind_ok]
      cases hmk : getKey ed "media" with
      | none =>
        simp only [Option.isSome_none, Bool.false_eq_true, if_false]
        exact ⟨[], rfl⟩
      | some m =>
        rw [hmk] at he
        dsimp only at he
        simp only [Option.isSome_some, if_true]
        have hix : pyIndexStr (.dict ed) "media" = .ok m := by
          simp [pyIndexStr, hmk]
        rw [hix, ebind_ok]
        by_cases ht : truthy m
        · rw [if_pos ht] at he ⊢
          cases m with
          | list ms =>
            first
            | dsimp only at he
            | skip
            cases ms with
            | nil => cases he
            | cons m0 mrest =>
              dsimp only at he
              have h0 : pyIndexNat (.list (m0 :: mrest)) 0 = .ok m0 := rfl
              rw [h0, ebind_ok]
              cases m0 with
              | dict md =>
                have hget : pyGetD (.dict md) "media_url_https" (.str "")
                    = .ok ((getKey md "media_url_https").getD (.str "")) := rfl
                rw [hget, ebind_ok]
                exact ⟨_, rfl⟩
              | none => cases he
              | bool b2 => cases he
              | int n => cases he
              | float q => cases he
              | str s => cases he
              | list xs => cases he
              | dt t => cases he
          | none => cases he
          | bool b2 => cases he
          | int n => cases he
          | float q => cases he
          | str s => cases he
          | dict d2 => cases he
          | dt t => cases he
        · rw [if_neg ht]
          exact ⟨[], rfl⟩
    | none => cases he
    | bool b2 => cases he
    | int n => cases he
    | float q => cases he
    | str s => cases he
    | list xs => cases he
    | dt t => cases he

theorem ytLocAssigns_ok (data : PyDict) (hl : wfLocation data = true) :
    ∃ l, ytLocAssigns data = .ok l := by
  rw [wfLocation] at hl
  rw [ytLocAssigns]
  cases hlk : getKey data "location" with
  | none => exact ⟨[], rfl⟩
  | some loc =>
    rw [hlk] at hl
    dsimp only at hl ⊢
    cases loc with
    | dict ld =>
      have hca : pyContainsStr (.dict ld) "latitude"
          = .ok (getKey ld "latitude").isSome := rfl
      rw [hca, ebind_ok]
      cases hla : getKey ld "latitude" with
      | none =>
        simp only [Option.isSome_none, Bool.false_eq_true, if_false]
        exact ⟨[], rfl⟩
      | some lav =>
        simp only [Option.isSome_some, if_true]
        have hcb : pyContainsStr (.dict ld) "longitude"
            = .ok (getKey ld "longitude").isSome := rfl
        rw [hcb, ebind_ok]
        cases hlo : getKey ld "longitude" with
        | none =>
          simp only [Option.isSome_none, Bool.false_eq_true, if_false]
          exact ⟨[], rfl⟩
        | some lov =>
          simp only [Option.isSome_some, if_true]
          have hia : pyIndexStr (.dict ld) "latitude" = .ok lav := by
            simp [pyIndexStr, hla]
          have hib : pyIndexStr (.dict ld) "longitude" = .ok lov := by
            simp [pyIndexStr, hlo]
          rw [hia, ebind_ok, hib, ebind_ok]
          exact ⟨_, rfl⟩
    | none => cases hl
    | bool b2 => cases hl
    | int n => cases hl
    | float q => cases hl
    | str s => cases hl
    | list xs => cases hl
    | dt t => cases hl

theorem pyFloat_ok (v : PyVal) (h : floatable v = true) : ∃ q, pyFloat v = .ok q := by
  cases v with
  | int n => exact ⟨(n : ℚ), rfl⟩
  | float q => exact ⟨q, rfl⟩
  | bool b => exact ⟨if b then 1 else 0, rfl⟩
  | str s =>
    rw [floatable] at h
    obtain ⟨q, hq⟩ := Option.isSome_iff_exists.mp h
    exact ⟨q, by simp [pyFloat, hq]⟩
  | none => cases h
  | list xs => cases h
  | dict d => cases h
  | dt t => cases h

theorem flCoordAssigns_ok (data : PyDict) (hf : wfFlickrCoords data = true) :
    ∃ l, flCoordAssigns data = .ok l := by
  rw [wfFlickrCoords] at hf
  rw [flCoordAssigns]
  cases hla : getKey data "latitude" with
  | none =>
    cases hlo : getKey data "longitude" with
    | none => exact ⟨[], rfl⟩
    | some lov => exact ⟨[], rfl⟩
  | some lav =>
    cases hlo : getKey data "longitude" with
    | none => exact ⟨[], rfl⟩
    | some lov =>
      rw [hla, hlo] at hf
      dsimp only at hf ⊢
      simp only [Bool.and_eq_true] at hf
      obtain ⟨qa, hqa⟩ := pyFloat_ok lav hf.1
      obtain ⟨qb, hqb⟩ := pyFloat_ok lov hf.2
      rw [hqa, ebind_ok, hqb, ebind_ok]
      exact ⟨_, rfl⟩

theorem twitterAssigns_ok (data : PyDict) (h1 : wfGeo data = true)
    (h2 : wfPlace data = true) (h3 : wfUser data = true)
    (h4 : wfEntities data = true) : ∃ l, twitterAssigns data = .ok l := by
  obtain ⟨g, hg⟩ := twGeoAssigns_ok data h1 h2
  obtain ⟨t, ht⟩ := twTitleAssign_ok data h3
  obtain ⟨u, hu⟩ := twUrlAssign_ok data h3
  obtain ⟨m, hm⟩ := twMediaAssign_ok data h4
  cases hres : twitterAssigns data with
  | ok l => exact ⟨l, rfl⟩
  | error e =>
    rw [twitterAssigns, hg, ebind_ok, ht, ebind_ok, hu, ebind_ok, hm, ebind_ok] at hres
    exact absurd hres (by simp [pure, Except.pure])

theorem youtubeAssigns_ok (data : PyDict) (hl : wfLocation data = true) :
    ∃ l, youtubeAssigns data = .ok l := by
  obtain ⟨loc, hloc⟩ := ytLocAssigns_ok data hl
  cases hres : youtubeAssigns data with
  | ok l => exact ⟨l, rfl⟩
  | error e =>
    rw [youtubeAssigns, hloc, ebind_ok] at hres
    exact absurd hres (by simp [pure, Except.pure])

theorem flickrAssigns_ok (data : PyDict) (hf : wfFlickrCoords data = true) :
    ∃ l, flickrAssigns data = .ok l := by
  obtain ⟨c, hc⟩ := flCoordAssigns_ok data hf
  cases hres : flickrAssigns data with
  | ok l => exact ⟨l, rfl⟩
  | error e =>
    rw [flickrAssigns, hc, ebind_ok] at hres
    refine absurd hres ?_
    simp only [pure, Except.pure]
    split <;> simp [ebind_ok, pure, Except.pure]

/-- C1 amended: absence of raw keys never raises — for every known
source and every raw record whose present values are well-shaped (the
decidable `wfRaw` conditions on the values each branch dereferences),
`normalize_data` returns a canonical record.  Malformed values, by
contrast, can raise, as the counterexample shows. -/
theorem normalize_total_on_wf (data : PyDict) (source : String)
    (h : wfRaw data source = true) : ∃ r, normalize_data data source = .ok r := by
  have ha : ∃ assigns, sourceAssigns data source = .ok assigns := by
    rw [wfRaw] at h
    rw [sourceAssigns]
    by_cases h1 : source = "twitter"
    · rw [if_pos h1]
      rw [if_pos h1] at h
      simp only [Bool.and_eq_true] at h
      exact twitterAssigns_ok data h.1.1.1 h.1.1.2 h.1.2 h.2
    · rw [if_neg h1]
      rw [if_neg h1] at h
      by_cases h2 : source = "youtube"
      · rw [if_pos h2] at h ⊢
        exact youtubeAssigns_ok data h
      · rw [if_neg h2] at h ⊢
        by_cases h3 : source = "flickr"
        · rw [if_pos h3] at h ⊢
          exact flickrAssigns_ok data h
        · rw [if_neg h3]
          exact ⟨[], rfl⟩
  obtain ⟨assigns, ha⟩ := ha
  cases hres : normalize_data data source with
  | ok r => exact ⟨r, rfl⟩
  | error e =>
    rw [normalize_data, ha, ebind_ok] at hres
    exact absurd hres (by simp [pure, Except.pure])

/-- C1 counterexample: a Flickr record whose latitude is the non-numeric
string "abc" does not degrade to a default — `float('abc')` raises
`ValueError` and the whole `normalize_data` call fails. -/
theorem normalize_total_counterexample :
    "flickr" ∈ (["twitter", "youtube", "flickr"] : List String) ∧
    normalize_data [("latitude", .str "abc"), ("longitude", .str "2.0")] "flickr"
      = .error .valueError := by
  exact ⟨by simp, rfl⟩

/-- C1 witness: a fully populated, well-shaped Twitter record satisfies
`wfRaw` and normalizes successfully. -/
theorem normalize_total_on_wf_witness :
    wfRaw [("geo", .dict [("coordinates", .list [.float 48, .float 2])]),
           ("user", .dict [("screen_name", .str "alice")]),
           ("text", .str "hello"),
           ("created_at", .str "Mon Jan 01 00:00:00 +0000 2024"),
           ("id_str", .str "99")] "twitter" = true ∧
    ∃ r, normalize_data
        [("geo", .dict [("coordinates", .list [.float 48, .float 2])]),
         ("user", .dict [("screen_name", .str "alice")]),
         ("text", .str "hello"),
         ("created_at", .str "Mon Jan 01 00:00:00 +0000 2024"),
         ("id_str", .str "99")] "twitter" = .ok r :=
  ⟨rfl, normalize_total_on_wf _ "twitter" rfl⟩

/-- C4 witness: with a start bound set, a record whose date string no
format parses is dropped (the filter returns the empty remainder, not an
error). -/
theorem filter_by_date_format_chain_witness :
    filter_by_date [[("date", PyVal.str "not-a-date")]]
        (some ⟨2024, 1, 1, 0, 0, 0, Option.none⟩) Option.none = .ok [] := by
  have h := (filter_by_date_format_chain (some ⟨2024, 1, 1, 0, 0, 0, Option.none⟩)
    Option.none [("date", PyVal.str "not-a-date")] [] "not-a-date"
    (Or.inl rfl) rfl rfl).2.2
  exact h.trans rfl

/-- C5 witness: a record with content "Paris museum" is retained when
searching for the uppercase keyword "PARIS". -/
theorem filter_by_keyword_spec_witness :
    filter_by_keyword [[("title", PyVal.str ""), ("content", PyVal.str "Paris museum")]]
        ["PARIS"]
      = .ok [[("title", PyVal.str ""), ("content", PyVal.str "Paris museum")]] := by
  have h := (filter_by_keyword_spec
    [[("title", PyVal.str ""), ("content", PyVal.str "Paris museum")]] ["PARIS"]
    (by decide)).2 (by decide)
  exact h.trans (by rfl)

theorem geoCoord_of_coercible (v : PyVal) (h : coercibleCoord v = true) :
    geoCoord v = .ok (coordVal v) := by
  rw [coercibleCoord] at h
  cases hg : geoCoord v with
  | ok q => simp [coordVal, hg]
  | error e => rw [hg] at h; cases h

theorem spatialStep_eval (dist : ℚ × ℚ → ℚ × ℚ → ℚ) (clat clon radius : ℚ)
    (r : PyDict) (hc : |clat| ≤ 90) (hr : spatialOk r = true) :
    spatialStep dist clat clon radius r = .ok (spatialKeep dist clat clon radius r) := by
  rw [spatialOk] at hr
  rw [spatialStep, spatialKeep]
  cases hla : getKey r "latitude" with
  | none =>
    cases hlo : getKey r "longitude" with
    | none => rfl
    | some lo => rfl
  | some la =>
    cases hlo : getKey r "longitude" with
    | none => rfl
    | some lo =>
      rw [hla, hlo] at hr
      dsimp only at hr
      simp only [Bool.and_eq_true, decide_eq_true_eq] at hr
      obtain ⟨⟨hca, hcb⟩, hrange⟩ := hr
      dsimp only
      have h1 : geoPointQ clat clon = .ok (clat, wrapLon clon) := by
        rw [geoPointQ, if_neg (not_lt.mpr hc)]
      have h2 : geoPointOf la lo = .ok (coordVal la, wrapLon (coordVal lo)) := by
        rw [geoPointOf, geoCoord_of_coercible la hca, ebind_ok,
          geoCoord_of_coercible lo hcb, ebind_ok]
        rw [if_neg (not_lt.mpr hrange)]
      rw [h1, ebind_ok, h2, ebind_ok]
      by_cases hd : dist (clat, wrapLon clon) (coordVal la, wrapLon (coordVal lo)) ≤ radius
      · rw [if_pos hd, if_pos hd]
        rfl
      · rw [if_neg hd, if_neg hd]
        rfl

/-- C3 amended: the spatial filter keeps a record iff both coordinate
KEYS are present and the distance from the center to the coerced point
is within the radius, attaching the computed distance; records lacking a
coordinate key are dropped, but a present-but-`None` coordinate is
coerced to `0.0` by the distance library's Point constructor (Null
Island) rather than dropping the record. -/
theorem filter_by_coordinates_spec (dist : ℚ × ℚ → ℚ × ℚ → ℚ) (data : List PyDict)
    (clat clon radius : ℚ) (hc : |clat| ≤ 90)
    (h : ∀ r ∈ data, spatialOk r = true) :
    coordVal PyVal.none = 0 ∧
    filter_by_coordinates dist data clat clon radius
      = .ok (data.filterMap (spatialKeep dist clat clon radius)) := by
  refine ⟨rfl, ?_⟩
  rw [filter_by_coordinates]
  exact exFilterMap_congr_ok _ _ data
    (fun r hr => spatialStep_eval dist clat clon radius r hc (h r hr))

/-- C3 counterexample: a normalized record whose latitude and longitude
keys are present with value `None` is NOT dropped — the coordinates
coerce to `(0, 0)` and for a center at the origin the record is kept
with distance 0 attached. -/
theorem spatial_nodrop_counterexample :
    filter_by_coordinates degDistKm
        [[("latitude", PyVal.none), ("longitude", PyVal.none)]] 0 0 1
      = .ok [[("latitude", PyVal.none), ("longitude", PyVal.none),
              ("distance", PyVal.float 0)]] := by with_unfolding_all rfl

/-- C3 witness: a record with in-radius coordinates is kept with its
distance attached, and a record lacking the coordinate keys is
dropped. -/
theorem filter_by_coordinates_spec_witness :
    filter_by_coordinates degDistKm
        [[("latitude", PyVal.float 48), ("longitude", PyVal.float 2)],
         [("title", PyVal.str "no coords")]] 48 2 1
      = .ok [[("latitude", PyVal.float 48), ("longitude", PyVal.float 2),
              ("distance", PyVal.float 0)]] := by
  have h := (filter_by_coordinates_spec degDistKm
    [[("latitude", PyVal.float 48), ("longitude", PyVal.float 2)],
     [("title", PyVal.str "no coords")]] 48 2 1 (by norm_num) (by decide)).2
  exact h.trans (by with_unfolding_all rfl)

theorem ebind_eq_ok {α β : Type} {x : Except PyErr α} {f : α → Except PyErr β} {v : β}
    (h : x >>= f = .ok v) : ∃ a, x = .ok a ∧ f a = .ok v := by
  cases x with
  | ok a => exact ⟨a, rfl, h⟩
  | error e =>
    rw [ebind_error] at h
    cases h

theorem epure_eq_ok {α : Type} {a v : α} (h : (pure a : Except PyErr α) = .ok v) :
    a = v :=
  Except.ok.inj h

theorem dateBounds_keep (s e : Option PyDatetime) (t : PyDatetime) (r b : PyDict)
    (h : dateBounds s e t r = .ok (some b)) : b = r := by
  rw [dateBounds] at h
  obtain ⟨d1, _, h2⟩ := ebind_eq_ok h
  cases d1 with
  | true =>
    rw [if_pos rfl] at h2
    exact Option.noConfusion (Except.ok.inj h2)
  | false =>
    rw [if_neg (by simp)] at h2
    obtain ⟨d2, _, h3⟩ := ebind_eq_ok h2
    cases d2 with
    | true =>
      rw [if_pos rfl] at h3
      exact Option.noConfusion (Except.ok.inj h3)
    | false =>
      rw [if_neg (by simp)] at h3
      exact (Option.some.inj (Except.ok.inj h3)).symm

theorem dateStep_keep (s e : Option PyDatetime) (r b : PyDict)
    (h : dateStep s e r = .ok (some b)) : b = r := by
  rw [dateStep] at h
  cases hk : getKey r "date" with
  | none =>
    rw [hk] at h
    exact Option.noConfusion (Except.ok.inj h)
  | some dv =>
    rw [hk] at h
    dsimp only at h
    by_cases ht : truthy dv = true
    · rw [if_neg (fun hcon => hcon ht)] at h
      cases hp : (match dv with
          | PyVal.str ds => parseDateStr ds
          | PyVal.dt t => some t
          | _ => Option.none) with
      | none =>
        rw [hp] at h
        exact Option.noConfusion (Except.ok.inj h)
      | some t =>
        rw [hp] at h
        exact dateBounds_keep s e t r b h
    · rw [if_pos ht] at h
      exact Option.noConfusion (Except.ok.inj h)

theorem kwStep_keep (kws : List String) (r b : PyDict)
    (h : kwStep kws r = .ok (some b)) : b = r := by
  rw [kwStep] at h
  obtain ⟨t, _, h2⟩ := ebind_eq_ok h
  obtain ⟨c, _, h3⟩ := ebind_eq_ok h2
  first
  | dsimp only at h3
  | skip
  by_cases hc : kws.any (fun k => strContains (t ++ " " ++ c) k) = true
  · rw [if_pos hc] at h3
    exact (Option.some.inj (epure_eq_ok h3)).symm
  · rw [if_neg hc] at h3
    exact Option.noConfusion (epure_eq_ok h3)

theorem spatialStep_keep (dist : ℚ × ℚ → ℚ × ℚ → ℚ) (clat clon radius : ℚ)
    (r b : PyDict) (h : spatialStep dist clat clon radius r = .ok (some b)) :
    ∃ d : ℚ, b = setKey r "distance" (.float d) := by
  rw [spatialStep] at h
  cases hla : getKey r "latitude" with
  | none =>
    rw [hla] at h
    cases hlo : getKey r "longitude" with
    | none => rw [hlo] at h; exact Option.noConfusion (epure_eq_ok h)
    | some lo => rw [hlo] at h; exact Option.noConfusion (epure_eq_ok h)
  | some la =>
    rw [hla] at h
    cases hlo : getKey r "longitude" with
    | none => rw [hlo] at h; exact Option.noConfusion (epure_eq_ok h)
    | some lo =>
      rw [hlo] at h
      dsimp only at h
      obtain ⟨cpt, _, h2⟩ := ebind_eq_ok h
      obtain ⟨ppt, _, h3⟩ := ebind_eq_ok h2
      first
      | dsimp only at h3
      | skip
      by_cases hd : dist cpt ppt ≤ radius
      · rw [if_pos hd] at h3
        exact ⟨dist cpt ppt, (Option.some.inj (epure_eq_ok h3)).symm⟩
      · rw [if_neg hd] at h3
        exact Option.noConfusion (epure_eq_ok h3)

/-- C9: the temporal and keyword filters return their kept records
unchanged (in particular the parsed datetime is never written back to
the date field), and the spatial filter changes a kept record only by
attaching the computed distance field, leaving all other keys
untouched. -/
theorem filters_no_mutation (dist : ℚ × ℚ → ℚ × ℚ → ℚ) (data out1 out2 out3 : List PyDict)
    (s e : Option PyDatetime) (kws : List String) (clat clon radius : ℚ)
    (h1 : filter_by_date data s e = .ok out1)
    (h2 : filter_by_keyword data kws = .ok out2)
    (h3 : filter_by_coordinates dist data clat clon radius = .ok out3) :
    (∀ r ∈ out1, r ∈ data) ∧ (∀ r ∈ out2, r ∈ data) ∧
    (∀ r2 ∈ out3, ∃ r ∈ data, ∃ d : ℚ, r2 = setKey r "distance" (.float d) ∧
      ∀ k, k ≠ "distance" → getKey r2 k = getKey r k) := by
  refine ⟨?_, ?_, ?_⟩
  · rw [filter_by_date] at h1
    by_cases hb : s.isNone ∧ e.isNone
    · rw [if_pos hb] at h1
      intro r hr
      have : data = out1 := by
        simpa using h1
      rw [this]
      exact hr
    · rw [if_neg hb] at h1
      intro r hr
      obtain ⟨a, ha, hfa⟩ := exFilterMap_mem _ data out1 h1 r hr
      rw [← dateStep_keep s e a r hfa] at ha
      exact ha
  · rw [filter_by_keyword] at h2
    by_cases hb : kws.isEmpty
    · rw [if_pos hb] at h2
      intro r hr
      have : data = out2 := by
        simpa using h2
      rw [this]
      exact hr
    · rw [if_neg hb] at h2
      intro r hr
      obtain ⟨a, ha, hfa⟩ := exFilterMap_mem _ data out2 h2 r hr
      rw [← kwStep_keep (kws.map strLower) a r hfa] at ha
      exact ha
  · rw [filter_by_coordinates] at h3
    intro r2 hr2
    obtain ⟨a, ha, hfa⟩ := exFilterMap_mem _ data out3 h3 r2 hr2
    obtain ⟨d, hd⟩ := spatialStep_keep dist clat clon radius a r2 hfa
    refine ⟨a, ha, d, hd, fun k hk => ?_⟩
    rw [hd]
    exact getKey_setKey_ne a "distance" k (.float d) (fun hx => hk hx.symm)

/-- C9 witness: on a concrete record the temporal and keyword filters
return the record itself and the spatial filter only adds the distance
field. -/
theorem filters_no_mutation_witness :
    (∀ r ∈ [[("latitude", PyVal.float 48), ("longitude", PyVal.float 2),
             ("title", PyVal.str "x"), ("content", PyVal.str ""),
             ("date", PyVal.str "2024-01-02 10:00:00")]],
      r ∈ [[("latitude", PyVal.float 48), ("longitude", PyVal.float 2),
            ("title", PyVal.str "x"), ("content", PyVal.str ""),
            ("date", PyVal.str "2024-01-02 10:00:00")]]) ∧
    (∀ r ∈ [[("latitude", PyVal.float 48), ("longitude", PyVal.float 2),
             ("title", PyVal.str "x"), ("content", PyVal.str ""),
             ("date", PyVal.str "2024-01-02 10:00:00")]],
      r ∈ [[("latitude", PyVal.float 48), ("longitude", PyVal.float 2),
            ("title", PyVal.str "x"), ("content", PyVal.str ""),
            ("date", PyVal.str "2024-01-02 10:00:00")]]) ∧
    (∀ r2 ∈ [setKey [("latitude", PyVal.float 48), ("longitude", PyVal.float 2),
                     ("title", PyVal.str "x"), ("content", PyVal.str ""),
                     ("date", PyVal.str "2024-01-02 10:00:00")] "distance" (.float 0)],
      ∃ r ∈ [[("latitude", PyVal.float 48), ("longitude", PyVal.float 2),
              ("title", PyVal.str "x"), ("content", PyVal.str ""),
              ("date", PyVal.str "2024-01-02 10:00:00")]],
        ∃ d : ℚ, r2 = setKey r "distance" (.float d) ∧
          ∀ k, k ≠ "distance" → getKey r2 k = getKey r k) := by
  exact filters_no_mutation degDistKm _ _ _ _
    (some ⟨2024, 1, 1, 0, 0, 0, Option.none⟩) Option.none ["x"] 48 2 1
    (by with_unfolding_all rfl) (by with_unfolding_all rfl) (by with_unfolding_all rfl)

theorem pyIndexStr_ok_dict (v : PyVal) (k : String) (x : PyVal)
    (h : pyIndexStr v k = .ok x) : ∃ d, v = .dict d ∧ getKey d k = some x := by
  cases v with
  | dict d =>
    rw [pyIndexStr] at h
    cases hk : getKey d k with
    | none => rw [hk] at h; cases h
    | some y =>
      rw [hk] at h
      exact ⟨d, rfl, by rw [hk, Except.ok.inj h]⟩
  | none => cases h
  | bool b => cases h
  | int n => cases h
  | float q => cases h
  | str s => cases h
  | list xs => cases h
  | dt t => cases h

theorem pyIndexNat_nonNone (v : PyVal) (i : Nat) (x : PyVal)
    (h : pyIndexNat v i = .ok x)
    (hv : ∀ xs, v = PyVal.list xs → nonNoneAt xs i = true) :
    x ≠ PyVal.none := by
  cases v with
  | list xs =>
    rw [pyIndexNat] at h
    have hnn := hv xs rfl
    rw [nonNoneAt] at hnn
    cases hx : xs.get? i with
    | none =>
      rw [hx] at h
      cases h
    | some y =>
      rw [hx] at hnn
      rw [hx] at h
      have hxy : x = y := (Except.ok.inj h).symm
      cases y with
      | none => cases hnn
      | bool b => rw [hxy]; intro hcon; cases hcon
      | int n => rw [hxy]; intro hcon; cases hcon
      | float q => rw [hxy]; intro hcon; cases hcon
      | str s => rw [hxy]; intro hcon; cases hcon
      | list l2 => rw [hxy]; intro hcon; cases hcon
      | dict d2 => rw [hxy]; intro hcon; cases hcon
      | dt t => rw [hxy]; intro hcon; cases hcon
  | str s =>
    rw [pyIndexNat] at h
    cases hx : s.data.get? i with
    | none =>
      rw [hx] at h
      cases h
    | some c =>
      rw [hx] at h
      rw [← Except.ok.inj h]
      intro hcon
      cases hcon
  | dict d => cases h
  | none => cases h
  | bool b => cases h
  | int n => cases h
  | float q => cases h
  | dt t => cases h

theorem pyDiv_ok_float (a b c : PyVal) (h : pyDiv a b = .ok c) : ∃ q, c = .float q := by
  rw [pyDiv] at h
  cases ha : pyNum a with
  | none => rw [ha] at h; cases h
  | some fa =>
    cases hb : pyNum b with
    | none => rw [ha, hb] at h; cases h
    | some fb =>
      rw [ha, hb] at h
      dsimp only at h
      by_cases hz : fb.2 = 0
      · rw [if_pos hz] at h; cases h
      · rw [if_neg hz] at h
        exact ⟨fa.2 / fb.2, (Except.ok.inj h).symm⟩

theorem twPlaceAssigns_pairing (data : PyDict) (l : List (RecField × PyVal))
    (h : twPlaceAssigns data = .ok l) :
    l = [] ∨ ∃ a b, l = [(RecField.latitude, a), (RecField.longitude, b)] ∧
      a ≠ PyVal.none ∧ b ≠ PyVal.none := by
  rw [twPlaceAssigns] at h
  cases hpl : getKey data "place" with
  | none =>
    rw [hpl] at h
    exact Or.inl (Except.ok.inj h).symm
  | some pl =>
    rw [hpl] at h
    dsimp only at h
    by_cases ht : truthy pl = true
    · rw [if_pos ht] at h
      obtain ⟨hb, _, h2⟩ := ebind_eq_ok h
      cases hb with
      | false =>
        rw [if_neg (by simp)] at h2
        exact Or.inl (Except.ok.inj h2).symm
      | true =>
        rw [if_pos rfl] at h2
        obtain ⟨bb, _, h3⟩ := ebind_eq_ok h2
        obtain ⟨co, _, h4⟩ := ebind_eq_ok h3
        obtain ⟨coords, _, h5⟩ := ebind_eq_ok h4
        obtain ⟨items, _, h6⟩ := ebind_eq_ok h5
        obtain ⟨lats, _, h7⟩ := ebind_eq_ok h6
        obtain ⟨latS, _, h8⟩ := ebind_eq_ok h7
        obtain ⟨lons, _, h9⟩ := ebind_eq_ok h8
        obtain ⟨lonS, _, h10⟩ := ebind_eq_ok h9
        obtain ⟨n, _, h11⟩ := ebind_eq_ok h10
        obtain ⟨latv, hdl, h12⟩ := ebind_eq_ok h11
        obtain ⟨lonv, hdo, h13⟩ := ebind_eq_ok h12
        obtain ⟨qa, hqa⟩ := pyDiv_ok_float _ _ _ hdl
        obtain ⟨qb, hqb⟩ := pyDiv_ok_float _ _ _ hdo
        refine Or.inr ⟨latv, lonv, (epure_eq_ok h13).symm, ?_, ?_⟩
        · rw [hqa]; intro hcon; cases hcon
        · rw [hqb]; intro hcon; cases hcon
    · rw [if_neg ht] at h
      exact Or.inl (Except.ok.inj h).symm

theorem twGeoAssigns_pairing (data : PyDict) (l : List (RecField × PyVal))
    (h : twGeoAssigns data = .ok l) (hwf : geoCoordsNonNone data = true) :
    l = [] ∨ ∃ a b, l = [(RecField.latitude, a), (RecField.longitude, b)] ∧
      a ≠ PyVal.none ∧ b ≠ PyVal.none := by
  rw [twGeoAssigns] at h
  rw [geoCoordsNonNone] at hwf
  cases hg : getKey data "geo" with
  | none =>
    rw [hg] at h
    exact twPlaceAssigns_pairing data l h
  | some g =>
    rw [hg] at h
    rw [hg] at hwf
    dsimp only at h
    by_cases ht : truthy g = true
    · rw [if_pos ht] at h
      obtain ⟨hb, _, h2⟩ := ebind_eq_ok h
      cases hb with
      | false =>
        rw [if_neg (by simp)] at h2
        exact twPlaceAssigns_pairing data l h2
      | true =>
        rw [if_pos rfl] at h2
        obtain ⟨coords, hco, h3⟩ := ebind_eq_ok h2
        obtain ⟨c0, hc0, h4⟩ := ebind_eq_ok h3
        obtain ⟨c1, hc1, h5⟩ := ebind_eq_ok h4
        obtain ⟨gd, hgd, hkey⟩ := pyIndexStr_ok_dict g "coordinates" coords hco
        rw [hgd] at hwf
        dsimp only at hwf
        rw [hkey] at hwf
        have hvx : ∀ xs, coords = PyVal.list xs →
            nonNoneAt xs 0 = true ∧ nonNoneAt xs 1 = true := by
          intro xs hxs
          rw [hxs] at hwf
          dsimp only at hwf
          simp only [Bool.and_eq_true] at hwf
          exact hwf
        refine Or.inr ⟨c0, c1, (epure_eq_ok h5).symm, ?_, ?_⟩
        · exact pyIndexNat_nonNone coords 0 c0 hc0 (fun xs hxs => (hvx xs hxs).1)
        · exact pyIndexNat_nonNone coords 1 c1 hc1 (fun xs hxs => (hvx xs hxs).2)
    · rw [if_neg ht] at h
      exact twPlaceAssigns_pairing data l h

theorem ytLocAssigns_pairing (data : PyDict) (l : List (RecField × PyVal))
    (h : ytLocAssigns data = .ok l) (hwf : locCoordsNonNone data = true) :
    l = [] ∨ ∃ a b, l = [(RecField.latitude, a), (RecField.longitude, b)] ∧
      a ≠ PyVal.none ∧ b ≠ PyVal.none := by
  rw [ytLocAssigns] at h
  rw [locCoordsNonNone] at hwf
  cases hk : getKey data "location" with
  | none =>
    rw [hk] at h
    exact Or.inl (Except.ok.inj h).symm
  | some loc =>
    rw [hk] at h
    rw [hk] at hwf
    dsimp only at h
    obtain ⟨b1, _, h2⟩ := ebind_eq_ok h
    cases b1 with
    | false =>
      rw [if_neg (by simp)] at h2
      exact Or.inl (Except.ok.inj h2).symm
    | true =>
      rw [if_pos rfl] at h2
      obtain ⟨b2, _, h3⟩ := ebind_eq_ok h2
      cases b2 with
      | false =>
        rw [if_neg (by simp)] at h3
        exact Or.inl (Except.ok.inj h3).symm
      | true =>
        rw [if_pos rfl] at h3
        obtain ⟨la, hla, h4⟩ := ebind_eq_ok h3
        obtain ⟨lo, hlo, h5⟩ := ebind_eq_ok h4
        obtain ⟨ld, hld, hlak⟩ := pyIndexStr_ok_dict loc "latitude" la hla
        obtain ⟨ld2, hld2, hlok⟩ := pyIndexStr_ok_dict loc "longitude" lo hlo
        rw [hld] at hwf hld2
        have hld3 : ld2 = ld := by
          exact (PyVal.dict.inj hld2).symm
        rw [hld3] at hlok
        dsimp only at hwf
        rw [hlak, hlok] at hwf
        simp only [Bool.and_eq_true] at hwf
        obtain ⟨hw1, hw2⟩ := hwf
        refine Or.inr ⟨la, lo, (epure_eq_ok h5).symm, ?_, ?_⟩
        · cases la with
          | none => cases hw1
          | bool b => intro hcon; cases hcon
          | int n => intro hcon; cases hcon
          | float q => intro hcon; cases hcon
          | str s => intro hcon; cases hcon
          | list xs => intro hcon; cases hcon
          | dict d2 => intro hcon; cases hcon
          | dt t => intro hcon; cases hcon
        · cases lo with
          | none => cases hw2
          | bool b => intro hcon; cases hcon
          | int n => intro hcon; cases hcon
          | float q => intro hcon; cases hcon
          | str s => intro hcon; cases hcon
          | list xs => intro hcon; cases hcon
          | dict d2 => intro hcon; cases hcon
          | dt t => intro hcon; cases hcon

theorem flCoordAssigns_pairing (data : PyDict) (l : List (RecField × PyVal))
    (h : flCoordAssigns data = .ok l) :
    l = [] ∨ ∃ a b, l = [(RecField.latitude, a), (RecField.longitude, b)] ∧
      a ≠ PyVal.none ∧ b ≠ PyVal.none := by
  rw [flCoordAssigns] at h
  cases hla : getKey data "latitude" with
  | none =>
    cases hlo : getKey data "longitude" with
    | none => rw [hla, hlo] at h; exact Or.inl (Except.ok.inj h).symm
    | some lov => rw [hla, hlo] at h; exact Or.inl (Except.ok.inj h).symm
  | some lav =>
    cases hlo : getKey data "longitude" with
    | none => rw [hla, hlo] at h; exact Or.inl (Except.ok.inj h).symm
    | some lov =>
      rw [hla, hlo] at h
      dsimp only at h
      obtain ⟨qa, _, h2⟩ := ebind_eq_ok h
      obtain ⟨qb, _, h3⟩ := ebind_eq_ok h2
      refine Or.inr ⟨.float qa, .float qb, (epure_eq_ok h3).symm, ?_, ?_⟩
      · intro hcon; cases hcon
      · intro hcon; cases hcon

theorem twPlaceAssigns_nil (data : PyDict) (l : List (RecField × PyVal))
    (h : twPlaceAssigns data = .ok l) (hc : twPlaceCond data = false) : l = [] := by
  rw [twPlaceAssigns] at h
  rw [twPlaceCond] at hc
  cases hpl : getKey data "place" with
  | none =>
    rw [hpl] at h
    exact (Except.ok.inj h).symm
  | some pl =>
    rw [hpl] at h
    rw [hpl] at hc
    dsimp only at h
    dsimp only at hc
    by_cases ht : truthy pl = true
    · rw [if_pos ht] at h
      rw [ht] at hc
      simp only [Bool.true_and] at hc
      obtain ⟨hb, hcb, h2⟩ := ebind_eq_ok h
      rw [hcb] at hc
      dsimp only [exTrue] at hc
      rw [hc] at h2
      rw [if_neg (by simp)] at h2
      exact (Except.ok.inj h2).symm
    · rw [if_neg ht] at h
      exact (Except.ok.inj h).symm

theorem twGeoAssigns_nil (data : PyDict) (l : List (RecField × PyVal))
    (h : twGeoAssigns data = .ok l) (hc : twGeoCond data = false)
    (hp : twPlaceCond data = false) : l = [] := by
  rw [twGeoAssigns] at h
  rw [twGeoCond] at hc
  cases hg : getKey data "geo" with
  | none =>
    rw [hg] at h
    exact twPlaceAssigns_nil data l h hp
  | some g =>
    rw [hg] at h
    rw [hg] at hc
    dsimp only at h
    dsimp only at hc
    by_cases ht : truthy g = true
    · rw [if_pos ht] at h
      rw [ht] at hc
      simp only [Bool.true_and] at hc
      obtain ⟨hb, hcb, h2⟩ := ebind_eq_ok h
      rw [hcb] at hc
      dsimp only [exTrue] at hc
      rw [hc] at h2
      rw [if_neg (by simp)] at h2
      exact twPlaceAssigns_nil data l h2 hp
    · rw [if_neg ht] at h
      exact twPlaceAssigns_nil data l h hp

theorem ytLocAssigns_nil (data : PyDict) (l : List (RecField × PyVal))
    (h : ytLocAssigns data = .ok l) (hc : ytLocCond data = false) : l = [] := by
  rw [ytLocAssigns] at h
  rw [ytLocCond] at hc
  cases hk : getKey data "location" with
  | none =>
    rw [hk] at h
    exact (Except.ok.inj h).symm
  | some loc =>
    rw [hk] at h
    rw [hk] at hc
    dsimp only at h
    dsimp only at hc
    obtain ⟨b1, hb1, h2⟩ := ebind_eq_ok h
    rw [hb1] at hc
    dsimp only [exTrue] at hc
    cases b1 with
    | false =>
      rw [if_neg (by simp)] at h2
      exact (Except.ok.inj h2).symm
    | true =>
      rw [if_pos rfl] at h2
      simp only [Bool.true_and] at hc
      obtain ⟨b2, hb2, h3⟩ := ebind_eq_ok h2
      rw [hb2] at hc
      dsimp only [exTrue] at hc
      rw [hc] at h3
      rw [if_neg (by simp)] at h3
      exact (Except.ok.inj h3).symm

theorem flCoordAssigns_nil (data : PyDict) (l : List (RecField × PyVal))
    (h : flCoordAssigns data = .ok l) (hc : flCoordCond data = false) : l = [] := by
  rw [flCoordAssigns] at h
  rw [flCoordCond] at hc
  cases hla : getKey data "latitude" with
  | none =>
    cases hlo : getKey data "longitude" with
    | none => rw [hla, hlo] at h; exact (Except.ok.inj h).symm
    | some lov => rw [hla, hlo] at h; exact (Except.ok.inj h).symm
  | some lav =>
    cases hlo : getKey data "longitude" with
    | none => rw [hla, hlo] at h; exact (Except.ok.inj h).symm
    | some lov =>
      rw [hla, hlo] at hc
      cases hc

theorem mem_opt_part (o : Option PyVal) (f : RecField) (p : RecField × PyVal)
    (hp : p ∈ (match o with | some v => [(f, v)] | Option.none => [])) : p.1 = f := by
  cases o with
  | none => cases hp
  | some v =>
    simp only [List.mem_singleton] at hp
    rw [hp]

theorem twTitleAssign_shape (data : PyDict) (t : List (RecField × PyVal))
    (h : twTitleAssign data = .ok t) : ∃ v, t = [(RecField.title, v)] := by
  rw [twTitleAssign] at h
  obtain ⟨sn, _, h2⟩ := ebind_eq_ok h
  exact ⟨.str ("@" ++ pyStr sn), (epure_eq_ok h2).symm⟩

theorem twUrlAssign_shape (data : PyDict) (u : List (RecField × PyVal))
    (h : twUrlAssign data = .ok u) : u = [] ∨ ∃ v, u = [(RecField.url, v)] := by
  rw [twUrlAssign] at h
  cases h1 : getKey data "id_str" with
  | none => rw [h1] at h; exact Or.inl (Except.ok.inj h).symm
  | some ids =>
    rw [h1] at h
    dsimp only at h
    cases h2 : getKey data "user" with
    | none => rw [h2] at h; exact Or.inl (Except.ok.inj h).symm
    | some user =>
      rw [h2] at h
      dsimp only at h
      obtain ⟨b1, _, h3⟩ := ebind_eq_ok h
      cases b1 with
      | false =>
        rw [if_neg (by simp)] at h3
        exact Or.inl (Except.ok.inj h3).symm
      | true =>
        rw [if_pos rfl] at h3
        obtain ⟨sv, _, h4⟩ := ebind_eq_ok h3
        exact Or.inr ⟨_, (epure_eq_ok h4).symm⟩

theorem twMediaAssign_shape (data : PyDict) (m : List (RecField × PyVal))
    (h : twMediaAssign data = .ok m) :
    m = [] ∨ ∃ v, m = [(RecField.image_url, v)] := by
  rw [twMediaAssign] at h
  cases h1 : getKey data "entities" with
  | none => rw [h1] at h; exact Or.inl (Except.ok.inj h).symm
  | some ents =>
    rw [h1] at h
    dsimp only at h
    obtain ⟨b1, _, h2⟩ := ebind_eq_ok h
    cases b1 with
    | false =>
      rw [if_neg (by simp)] at h2
      exact Or.inl (Except.ok.inj h2).symm
    | true =>
      rw [if_pos rfl] at h2
      obtain ⟨media, _, h3⟩ := ebind_eq_ok h2
      by_cases ht : truthy media = true
      · rw [if_pos ht] at h3
        obtain ⟨m0, _, h4⟩ := ebind_eq_ok h3
        obtain ⟨uv, _, h5⟩ := ebind_eq_ok h4
        exact Or.inr ⟨uv, (epure_eq_ok h5).symm⟩
      · rw [if_neg ht] at h3
        exact Or.inl (Except.ok.inj h3).symm

theorem twitterAssigns_decomp (data : PyDict) (assigns : List (RecField × PyVal))
    (h : twitterAssigns data = .ok assigns) :
    ∃ g rest, twGeoAssigns data = .ok g ∧ assigns = g ++ rest ∧
      ∀ p ∈ rest, p.1.key ≠ "latitude" ∧ p.1.key ≠ "longitude" := by
  rw [twitterAssigns] at h
  obtain ⟨g, hg, h2⟩ := ebind_eq_ok h
  obtain ⟨t, ht, h3⟩ := ebind_eq_ok h2
  obtain ⟨u, hu, h4⟩ := ebind_eq_ok h3
  obtain ⟨m, hm, h5⟩ := ebind_eq_ok h4
  have hassigns := (epure_eq_ok h5).symm
  refine ⟨g, t ++ [(RecField.content, (getKey data "text").getD (.str ""))] ++
    (match getKey data "created_at" with
     | some v => [(RecField.date, v)]
     | Option.none => []) ++ u ++ m, hg, ?_, ?_⟩
  · rw [hassigns]
    simp [List.append_assoc]
  · intro p hp
    simp only [List.append_assoc, List.mem_append] at hp
    obtain ⟨v1, ht1⟩ := twTitleAssign_shape data t ht
    rcases hp with hp | hp | hp | hp | hp
    · rw [ht1] at hp
      simp only [List.mem_singleton] at hp
      rw [hp]
      exact ⟨by simp [RecField.key], by simp [RecField.key]⟩
    · simp only [List.mem_singleton] at hp
      rw [hp]
      exact ⟨by simp [RecField.key], by simp [RecField.key]⟩
    · have := mem_opt_part (getKey data "created_at") RecField.date p hp
      rw [this]
      exact ⟨by simp [RecField.key], by simp [RecField.key]⟩
    · rcases twUrlAssign_shape data u hu with h0 | ⟨v2, h0⟩
      · rw [h0] at hp; cases hp
      · rw [h0] at hp
        simp only [List.mem_singleton] at hp
        rw [hp]
        exact ⟨by simp [RecField.key], by simp [RecField.key]⟩
    · rcases twMediaAssign_shape data m hm with h0 | ⟨v2, h0⟩
      · rw [h0] at hp; cases hp
      · rw [h0] at hp
        simp only [List.mem_singleton] at hp
        rw [hp]
        exact ⟨by simp [RecField.key], by simp [RecField.key]⟩

theorem youtubeAssigns_decomp (data : PyDict) (assigns : List (RecField × PyVal))
    (h : youtubeAssigns data = .ok assigns) :
    ∃ g rest, ytLocAssigns data = .ok g ∧ assigns = g ++ rest ∧
      ∀ p ∈ rest, p.1.key ≠ "latitude" ∧ p.1.key ≠ "longitude" := by
  rw [youtubeAssigns] at h
  obtain ⟨g, hg, h2⟩ := ebind_eq_ok h
  have hassigns := (epure_eq_ok h2).symm
  refine ⟨g, [(RecField.title, (getKey data "title").getD (.str ""))] ++
    [(RecField.content, (getKey data "description").getD (.str ""))] ++
    (match getKey data "published_at" with
     | some v => [(RecField.date, v)]
     | Option.none => []) ++
    (match getKey data "id" with
     | some idv => [(RecField.url, PyVal.str ("https://www.youtube.com/watch?v=" ++ pyStr idv))]
     | Option.none => []) ++
    (match getKey data "thumbnail_url" with
     | some v => [(RecField.image_url, v)]
     | Option.none => []), hg, ?_, ?_⟩
  · rw [hassigns]
    simp [List.append_assoc]
  · intro p hp
    simp only [List.append_assoc, List.mem_append] at hp
    rcases hp with hp | hp | hp | hp | hp
    · simp only [List.mem_singleton] at hp
      rw [hp]
      exact ⟨by simp [RecField.key], by simp [RecField.key]⟩
    · simp only [List.mem_singleton] at hp
      rw [hp]
      exact ⟨by simp [RecField.key], by simp [RecField.key]⟩
    · have := mem_opt_part (getKey data "published_at") RecField.date p hp
      rw [this]
      exact ⟨by simp [RecField.key], by simp [RecField.key]⟩
    · cases hid : getKey data "id" with
      | none => rw [hid] at hp; cases hp
      | some idv =>
        rw [hid] at hp
        simp only [List.mem_singleton] at hp
        rw [hp]
        exact ⟨by simp [RecField.key], by simp [RecField.key]⟩
    · have := mem_opt_part (getKey data "thumbnail_url") RecField.image_url p hp
      rw [this]
      exact ⟨by simp [RecField.key], by simp [RecField.key]⟩

theorem flickrAssigns_decomp (data : PyDict) (assigns : List (RecField × PyVal))
    (h : flickrAssigns data = .ok assigns) :
    ∃ g rest, flCoordAssigns data = .ok g ∧ assigns = g ++ rest ∧
      ∀ p ∈ rest, p.1.key ≠ "latitude" ∧ p.1.key ≠ "longitude" := by
  rw [flickrAssigns] at h
  obtain ⟨g, hg, h2⟩ := ebind_eq_ok h
  dsimp only at h2
  have key : ∃ u, (u = [] ∨ ∃ v, u = [(RecField.url, v)]) ∧
      assigns = g ++ [(RecField.title, (getKey data "title").getD (.str ""))] ++
        [(RecField.content, (getKey data "description").getD (.str ""))] ++
        (match getKey data "date_taken" with
         | some v => [(RecField.date, v)]
         | Option.none => []) ++ u ++
        (match getKey data "url_m" with
         | some v => [(RecField.image_url, v)]
         | Option.none => []) := by
    cases h1 : getKey data "id" with
    | none =>
      rw [h1] at h2
      cases h2x : getKey data "owner" with
      | none =>
        rw [h2x] at h2
        dsimp only at h2
        exact ⟨[], Or.inl rfl, (epure_eq_ok h2).symm⟩
      | some ov =>
        rw [h2x] at h2
        dsimp only at h2
        exact ⟨[], Or.inl rfl, (epure_eq_ok h2).symm⟩
    | some idv =>
      rw [h1] at h2
      cases h2x : getKey data "owner" with
      | none =>
        rw [h2x] at h2
        dsimp only at h2
        exact ⟨[], Or.inl rfl, (epure_eq_ok h2).symm⟩
      | some ov =>
        rw [h2x] at h2
        dsimp only at h2
        exact ⟨_, Or.inr ⟨_, rfl⟩, (epure_eq_ok h2).symm⟩
  obtain ⟨u, hushape, hassigns⟩ := key
  refine ⟨g, [(RecField.title, (getKey data "title").getD (.str ""))] ++
    [(RecField.content, (getKey data "description").getD (.str ""))] ++
    (match getKey data "date_taken" with
     | some v => [(RecField.date, v)]
     | Option.none => []) ++ u ++
    (match getKey data "url_m" with
     | some v => [(RecField.image_url, v)]
     | Option.none => []), hg, ?_, ?_⟩
  · rw [hassigns]
    simp [List.append_assoc]
  · intro p hp
    simp only [List.append_assoc, List.mem_append] at hp
    rcases hp with hp | hp | hp | hp | hp
    · simp only [List.mem_singleton] at hp
      rw [hp]
      exact ⟨by simp [RecField.key], by simp [RecField.key]⟩
    · simp only [List.mem_singleton] at hp
      rw [hp]
      exact ⟨by simp [RecField.key], by simp [RecField.key]⟩
    · have := mem_opt_part (getKey data "date_taken") RecField.date p hp
      rw [this]
      exact ⟨by simp [RecField.key], by simp [RecField.key]⟩
    · rcases hushape with h0 | ⟨v2, h0⟩
      · rw [h0] at hp; cases hp
      · rw [h0] at hp
        simp only [List.mem_singleton] at hp
        rw [hp]
        exact ⟨by simp [RecField.key], by simp [RecField.key]⟩
    · have := mem_opt_part (getKey data "url_m") RecField.image_url p hp
      rw [this]
      exact ⟨by simp [RecField.key], by simp [RecField.key]⟩

theorem getKey_coords_of_shape (data : PyDict) (source : String)
    (g rest : List (RecField × PyVal))
    (hrest : ∀ p ∈ rest, p.1.key ≠ "latitude" ∧ p.1.key ≠ "longitude")
    (hshape : g = [] ∨ ∃ a b, g = [(RecField.latitude, a), (RecField.longitude, b)] ∧
      a ≠ PyVal.none ∧ b ≠ PyVal.none) :
    (g = [] →
      getKey (applyAssigns (initNormalized data source) (g ++ rest)) "latitude"
        = some PyVal.none ∧
      getKey (applyAssigns (initNormalized data source) (g ++ rest)) "longitude"
        = some PyVal.none) ∧
    (getKey (applyAssigns (initNormalized data source) (g ++ rest)) "latitude"
        = some PyVal.none ↔
     getKey (applyAssigns (initNormalized data source) (g ++ rest)) "longitude"
        = some PyVal.none) := by
  have hlat := getKey_applyAssigns_ne rest (applyAssigns (initNormalized data source) g)
    "latitude" (fun p hp => (hrest p hp).1)
  have hlon := getKey_applyAssigns_ne rest (applyAssigns (initNormalized data source) g)
    "longitude" (fun p hp => (hrest p hp).2)
  rw [applyAssigns_append]
  rcases hshape with rfl | ⟨a, b, rfl, ha, hb⟩
  · rw [applyAssigns_nil] at hlat hlon
    rw [applyAssigns_nil, hlat, hlon]
    have h1 : getKey (initNormalized data source) "latitude" = some PyVal.none := by
      simp [initNormalized, getKey_cons]
    have h2 : getKey (initNormalized data source) "longitude" = some PyVal.none := by
      simp [initNormalized, getKey_cons]
    exact ⟨fun _ => ⟨h1, h2⟩, by rw [h1, h2]⟩
  · have e1 : applyAssigns (initNormalized data source)
        [(RecField.latitude, a), (RecField.longitude, b)] =
        setKey (setKey (initNormalized data source) "latitude" a) "longitude" b := rfl
    rw [hlat, hlon, e1]
    rw [getKey_setKey_ne _ "longitude" "latitude" b (by decide), getKey_setKey_self,
      getKey_setKey_self]
    constructor
    · intro hg
      exact absurd hg (List.cons_ne_nil _ _)
    · constructor
      · intro hx
        exact absurd (Option.some.inj hx) ha
      · intro hx
        exact absurd (Option.some.inj hx) hb

/-- C2: for every raw record and known source, if the record's candidate
coordinate values are themselves non-None (coordWf), then a successful
normalize yields latitude and longitude that are None together: when the
source's geo-extraction guard does not fire both stay None, and in no
case is exactly one of them non-None.  (Without coordWf the claim fails:
a Twitter geo list carrying a literal None is copied one-sidedly, see the
counterexample.) -/
theorem normalize_coord_pairing (data : PyDict) (source : String) (r : PyDict)
    (hok : normalize_data data source = .ok r) (hwf : coordWf data source = true) :
    (noGeoField data source = true →
      getKey r "latitude" = some PyVal.none ∧ getKey r "longitude" = some PyVal.none) ∧
    (getKey r "latitude" = some PyVal.none ↔ getKey r "longitude" = some PyVal.none) := by
  rw [normalize_data] at hok
  obtain ⟨assigns, hsrc, hret⟩ := ebind_eq_ok hok
  have hr : r = applyAssigns (initNormalized data source) assigns := (epure_eq_ok hret).symm
  rw [sourceAssigns] at hsrc
  by_cases ht : source = "twitter"
  · rw [if_pos ht] at hsrc
    obtain ⟨g, rest, hg, hae, hrest⟩ := twitterAssigns_decomp data assigns hsrc
    have hwf2 : geoCoordsNonNone data = true := by
      rw [coordWf, if_pos ht] at hwf
      exact hwf
    have hshape := twGeoAssigns_pairing data g hg hwf2
    have hmain := getKey_coords_of_shape data source g rest hrest hshape
    rw [hr, hae]
    refine ⟨fun hng => ?_, hmain.2⟩
    rw [noGeoField, if_pos ht] at hng
    simp only [Bool.and_eq_true, Bool.not_eq_true'] at hng
    exact hmain.1 (twGeoAssigns_nil data g hg hng.1 hng.2)
  · rw [if_neg ht] at hsrc
    by_cases hy : source = "youtube"
    · rw [if_pos hy] at hsrc
      obtain ⟨g, rest, hg, hae, hrest⟩ := youtubeAssigns_decomp data assigns hsrc
      have hwf2 : locCoordsNonNone data = true := by
        rw [coordWf, if_neg ht, if_pos hy] at hwf
        exact hwf
      have hshape := ytLocAssigns_pairing data g hg hwf2
      have hmain := getKey_coords_of_shape data source g rest hrest hshape
      rw [hr, hae]
      refine ⟨fun hng => ?_, hmain.2⟩
      rw [noGeoField, if_neg ht, if_pos hy] at hng
      simp only [Bool.not_eq_true'] at hng
      exact hmain.1 (ytLocAssigns_nil data g hg hng)
    · rw [if_neg hy] at hsrc
      by_cases hf : source = "flickr"
      · rw [if_pos hf] at hsrc
        obtain ⟨g, rest, hg, hae, hrest⟩ := flickrAssigns_decomp data assigns hsrc
        have hshape := flCoordAssigns_pairing data g hg
        have hmain := getKey_coords_of_shape data source g rest hrest hshape
        rw [hr, hae]
        refine ⟨fun hng => ?_, hmain.2⟩
        rw [noGeoField, if_neg ht, if_neg hy, if_pos hf] at hng
        simp only [Bool.not_eq_true'] at hng
        exact hmain.1 (flCoordAssigns_nil data g hg hng)
      · rw [if_neg hf] at hsrc
        have hasn : assigns = [] := (epure_eq_ok hsrc).symm
        rw [hr, hasn, applyAssigns_nil]
        have h1 : getKey (initNormalized data source) "latitude" = some PyVal.none := by
          simp [initNormalized, getKey_cons]
        have h2 : getKey (initNormalized data source) "longitude" = some PyVal.none := by
          simp [initNormalized, getKey_cons]
        exact ⟨fun _ => ⟨h1, h2⟩, by rw [h1, h2]⟩

/-- C2 counterexample: a Twitter record whose `geo.coordinates` list is
`[None, 5.0]` normalizes without error to latitude None and longitude
5.0 — exactly one of the pair is set, which the claim says never
happens.  (Python copies `data['geo']['coordinates'][0]` verbatim, None
included.) -/
theorem normalize_one_sided_counterexample :
    (normalize_data
        [("geo", PyVal.dict [("coordinates", PyVal.list [PyVal.none, PyVal.float 5])])]
        "twitter").map
      (fun r => (getKey r "latitude", getKey r "longitude")) =
    .ok (some PyVal.none, some (PyVal.float 5)) := rfl

/-- C2 witness: a YouTube record with no location key satisfies the
well-formedness side condition, its guard does not fire, and the claim
theorem instantiated there yields latitude = longitude = None. -/
theorem normalize_coord_pairing_witness :
    coordWf [("id", PyVal.str "99")] "youtube" = true ∧
    noGeoField [("id", PyVal.str "99")] "youtube" = true ∧
    ∃ r, normalize_data [("id", PyVal.str "99")] "youtube" = .ok r ∧
      getKey r "latitude" = some PyVal.none ∧ getKey r "longitude" = some PyVal.none := by
  refine ⟨rfl, rfl, ?_⟩
  have hres : ∃ r, normalize_data [("id", PyVal.str "99")] "youtube" = .ok r := ⟨_, rfl⟩
  obtain ⟨r, hres⟩ := hres
  exact ⟨r, hres, (normalize_coord_pairing _ _ r hres rfl).1 rfl⟩

theorem spatialKeep_some (dist : ℚ × ℚ → ℚ × ℚ → ℚ) (clat clon radius : ℚ)
    (r b : PyDict) (h : spatialKeep dist clat clon radius r = some b) :
    ∃ d : ℚ, b = setKey r "distance" (PyVal.float d) := by
  rw [spatialKeep] at h
  cases hla : getKey r "latitude" with
  | none =>
    rw [hla] at h
    cases hlo : getKey r "longitude" with
    | none => rw [hlo] at h; cases h
    | some lo => rw [hlo] at h; cases h
  | some la =>
    rw [hla] at h
    cases hlo : getKey r "longitude" with
    | none => rw [hlo] at h; cases h
    | some lo =>
      rw [hlo] at h
      dsimp only at h
      by_cases hd : dist (clat, wrapLon clon) (coordVal la, wrapLon (coordVal lo)) ≤ radius
      · rw [if_pos hd] at h
        exact ⟨_, (Option.some.inj h).symm⟩
      · rw [if_neg hd] at h
        cases h

theorem recordText_setKey_distance (r : PyDict) (v : PyVal) :
    recordText (setKey r "distance" v) = recordText r := by
  rw [recordText, recordText, getKey_setKey_ne r "distance" "title" v (by decide),
    getKey_setKey_ne r "distance" "content" v (by decide)]

theorem dateBounds_point (s e : Option PyDatetime) (t : PyDatetime) (p1 p2 : PyDict) :
    dateBounds s e t p2
      = (dateBounds s e t p1).map (fun o => o.map (fun _ => p2)) := by
  rw [dateBounds, dateBounds]
  cases hs : startDrop s t with
  | error err => simp only [ebind_error]; rfl
  | ok d1 =>
    simp only [ebind_ok]
    cases d1 with
    | true => rw [if_pos rfl, if_pos rfl]; rfl
    | false =>
      rw [if_neg (by simp), if_neg (by simp)]
      cases he2 : endDrop e t with
      | error err => simp only [ebind_error]; rfl
      | ok d2 =>
        simp only [ebind_ok]
        cases d2 with
        | true => rw [if_pos rfl, if_pos rfl]; rfl
        | false => rw [if_neg (by simp), if_neg (by simp)]; rfl

theorem dateStep_setKey (s e : Option PyDatetime) (r : PyDict) (v : PyVal) :
    dateStep s e (setKey r "distance" v)
      = (dateStep s e r).map (fun o => o.map (fun _ => setKey r "distance" v)) := by
  rw [dateStep, dateStep, getKey_setKey_ne r "distance" "date" v (by decide)]
  cases hk : getKey r "date" with
  | none => rfl
  | some dv =>
    dsimp only
    by_cases ht : truthy dv = true
    · rw [if_neg (fun hcon => hcon ht), if_neg (fun hcon => hcon ht)]
      cases hp : (match dv with
          | PyVal.str ds => parseDateStr ds
          | PyVal.dt t => some t
          | _ => Option.none) with
      | none => rfl
      | some t => exact dateBounds_point s e t r (setKey r "distance" v)
    · rw [if_pos ht, if_pos ht]
      rfl

theorem dateKeep_setKey (s e : Option PyDatetime) (r : PyDict) (v : PyVal) :
    dateKeep s e (setKey r "distance" v) = dateKeep s e r := by
  unfold dateKeep
  rw [dateStep_setKey]
  cases dateStep s e r with
  | error err => rfl
  | ok o => cases o <;> rfl

theorem dateOk_setKey (s e : Option PyDatetime) (r : PyDict) (v : PyVal) :
    dateOk s e (setKey r "distance" v) = dateOk s e r := by
  unfold dateOk
  rw [dateStep_setKey]
  cases dateStep s e r with
  | error err => rfl
  | ok o => cases o <;> rfl

theorem dateStep_total_eval (s e : Option PyDatetime) (r : PyDict)
    (h : dateOk s e r = true) :
    dateStep s e r = .ok (if dateKeep s e r then some r else Option.none) := by
  cases hst : dateStep s e r with
  | error err =>
    unfold dateOk at h
    rw [hst] at h
    cases h
  | ok o =>
    cases o with
    | none =>
      have hk : dateKeep s e r = false := by
        unfold dateKeep
        rw [hst]
      rw [hk]
      rfl
    | some b =>
      have hb : b = r := dateStep_keep s e r b hst
      have hk : dateKeep s e r = true := by
        unfold dateKeep
        rw [hst]
      rw [hk, hb]
      rfl

theorem filter_by_keyword_eval (l : List PyDict) (kws : List String)
    (h : ∀ r ∈ l, (recordText r).isSome = true) :
    filter_by_keyword l kws = .ok (kwApply kws l) := by
  rw [filter_by_keyword, kwApply]
  by_cases he : kws.isEmpty = true
  · rw [if_pos he, if_pos he]
  · rw [if_neg he, if_neg he]
    rw [exFilterMap_congr_ok (kwStep (kws.map strLower))
      (fun r => if kws.any (fun k => strContains ((recordText r).getD "") (strLower k))
        then some r else Option.none) l ?hstep]
    · rw [filterMap_ite_eq_filter]
    case hstep =>
      intro r hr
      obtain ⟨txt, htxt⟩ := Option.isSome_iff_exists.mp (h r hr)
      show kwStep (kws.map strLower) r
        = .ok (if kws.any (fun k => strContains ((recordText r).getD "") (strLower k))
            then some r else Option.none)
      rw [kwStep_eval (kws.map strLower) r txt htxt, htxt]
      have hany : (kws.map strLower).any (fun k => strContains txt k)
          = kws.any (fun k => strContains txt (strLower k)) := by
        rw [List.any_map]
        rfl
      simp [hany]

theorem filter_by_date_eval (l : List PyDict) (s e : Option PyDatetime)
    (h : ∀ r ∈ l, dateOk s e r = true) :
    filter_by_date l s e = .ok (dtApply s e l) := by
  rw [filter_by_date, dtApply]
  by_cases hb : s.isNone ∧ e.isNone
  · rw [if_pos hb, if_pos hb]
  · rw [if_neg hb, if_neg hb]
    rw [exFilterMap_congr_ok (dateStep s e)
      (fun r => if dateKeep s e r then some r else Option.none) l
      (fun r hr => dateStep_total_eval s e r (h r hr))]
    rw [filterMap_ite_eq_filter]

theorem filter_by_coordinates_eval (dist : ℚ × ℚ → ℚ × ℚ → ℚ) (l : List PyDict)
    (clat clon radius : ℚ) (hc : |clat| ≤ 90)
    (h : ∀ r ∈ l, spatialOk r = true) :
    filter_by_coordinates dist l clat clon radius
      = .ok (spApply dist clat clon radius l) := by
  rw [filter_by_coordinates, spApply]
  exact exFilterMap_congr_ok _ _ l
    (fun r hr => spatialStep_eval dist clat clon radius r hc (h r hr))

theorem kwApply_mem (kws : List String) (l : List PyDict) (r : PyDict)
    (h : r ∈ kwApply kws l) : r ∈ l := by
  rw [kwApply] at h
  by_cases he : kws.isEmpty = true
  · rw [if_pos he] at h
    exact h
  · rw [if_neg he] at h
    exact List.mem_of_mem_filter h

theorem dtApply_mem (s e : Option PyDatetime) (l : List PyDict) (r : PyDict)
    (h : r ∈ dtApply s e l) : r ∈ l := by
  rw [dtApply] at h
  by_cases hb : s.isNone ∧ e.isNone
  · rw [if_pos hb] at h
    exact h
  · rw [if_neg hb] at h
    exact List.mem_of_mem_filter h

theorem spApply_mem (dist : ℚ × ℚ → ℚ × ℚ → ℚ) (clat clon radius : ℚ)
    (l : List PyDict) (b : PyDict) (h : b ∈ spApply dist clat clon radius l) :
    ∃ a ∈ l, ∃ d : ℚ, b = setKey a "distance" (PyVal.float d) := by
  rw [spApply] at h
  obtain ⟨a, ha, hab⟩ := List.mem_filterMap.mp h
  obtain ⟨d, hd⟩ := spatialKeep_some dist clat clon radius a b hab
  exact ⟨a, ha, d, hd⟩

theorem recordText_isSome_spApply (dist : ℚ × ℚ → ℚ × ℚ → ℚ) (clat clon radius : ℚ)
    (l : List PyDict) (h : ∀ r ∈ l, (recordText r).isSome = true) :
    ∀ r ∈ spApply dist clat clon radius l, (recordText r).isSome = true := by
  intro r hr
  obtain ⟨a, ha, d, hd⟩ := spApply_mem dist clat clon radius l r hr
  rw [hd, recordText_setKey_distance]
  exact h a ha

theorem dateOk_spApply (s e : Option PyDatetime) (dist : ℚ × ℚ → ℚ × ℚ → ℚ)
    (clat clon radius : ℚ) (l : List PyDict)
    (h : ∀ r ∈ l, dateOk s e r = true) :
    ∀ r ∈ spApply dist clat clon radius l, dateOk s e r = true := by
  intro r hr
  obtain ⟨a, ha, d, hd⟩ := spApply_mem dist clat clon radius l r hr
  rw [hd, dateOk_setKey]
  exact h a ha

theorem kwApply_dtApply_comm (kws : List String) (s e : Option PyDatetime)
    (l : List PyDict) :
    kwApply kws (dtApply s e l) = dtApply s e (kwApply kws l) := by
  rw [kwApply, kwApply, dtApply, dtApply]
  by_cases he : kws.isEmpty = true
  · rw [if_pos he, if_pos he]
  · rw [if_neg he, if_neg he]
    by_cases hb : s.isNone ∧ e.isNone
    · rw [if_pos hb, if_pos hb]
    · rw [if_neg hb, if_neg hb]
      exact filter_swap _ _ l

theorem kwApply_spApply_comm (kws : List String) (dist : ℚ × ℚ → ℚ × ℚ → ℚ)
    (clat clon radius : ℚ) (l : List PyDict) :
    kwApply kws (spApply dist clat clon radius l)
      = spApply dist clat clon radius (kwApply kws l) := by
  rw [kwApply, kwApply, spApply, spApply]
  by_cases he : kws.isEmpty = true
  · rw [if_pos he, if_pos he]
  · rw [if_neg he, if_neg he]
    refine filterMap_filter_comm _ _ (fun a b hab => ?_) l
    obtain ⟨d, hd⟩ := spatialKeep_some dist clat clon radius a b hab
    first
    | dsimp only
    | skip
    rw [hd, recordText_setKey_distance]

theorem dtApply_spApply_comm (s e : Option PyDatetime) (dist : ℚ × ℚ → ℚ × ℚ → ℚ)
    (clat clon radius : ℚ) (l : List PyDict) :
    dtApply s e (spApply dist clat clon radius l)
      = spApply dist clat clon radius (dtApply s e l) := by
  rw [dtApply, dtApply, spApply, spApply]
  by_cases hb : s.isNone ∧ e.isNone
  · rw [if_pos hb, if_pos hb]
  · rw [if_neg hb, if_neg hb]
    refine filterMap_filter_comm _ _ (fun a b hab => ?_) l
    obtain ⟨d, hd⟩ := spatialKeep_some dist clat clon radius a b hab
    rw [hd, dateKeep_setKey]

/-- C8 amended: applying the spatial, temporal, and keyword filters in
any of the six orders yields the same output list — provided every
record is one each filter can process without raising: its title and
content (after the `.get` defaults) are strings, its coordinates when
present are coercible with an in-range latitude, and its date
comparisons do not mix naive and aware datetimes.  Without that proviso
the orders are observably different, see the counterexample: a record
the spatial filter silently drops can make the keyword filter raise. -/
theorem filters_commute (dist : ℚ × ℚ → ℚ × ℚ → ℚ) (data : List PyDict)
    (s e : Option PyDatetime) (kws : List String) (clat clon radius : ℚ)
    (hc : |clat| ≤ 90)
    (hkw : ∀ r ∈ data, (recordText r).isSome = true)
    (hsp : ∀ r ∈ data, spatialOk r = true)
    (hdt : ∀ r ∈ data, dateOk s e r = true) :
    ∃ out : List PyDict,
      (filter_by_coordinates dist data clat clon radius >>= fun l1 =>
        filter_by_date l1 s e >>= fun l2 => filter_by_keyword l2 kws) = .ok out ∧
      (filter_by_coordinates dist data clat clon radius >>= fun l1 =>
        filter_by_keyword l1 kws >>= fun l2 => filter_by_date l2 s e) = .ok out ∧
      (filter_by_date data s e >>= fun l1 =>
        filter_by_coordinates dist l1 clat clon radius >>= fun l2 =>
          filter_by_keyword l2 kws) = .ok out ∧
      (filter_by_date data s e >>= fun l1 =>
        filter_by_keyword l1 kws >>= fun l2 =>
          filter_by_coordinates dist l2 clat clon radius) = .ok out ∧
      (filter_by_keyword data kws >>= fun l1 =>
        filter_by_coordinates dist l1 clat clon radius >>= fun l2 =>
          filter_by_date l2 s e) = .ok out ∧
      (filter_by_keyword data kws >>= fun l1 =>
        filter_by_date l1 s e >>= fun l2 =>
          filter_by_coordinates dist l2 clat clon radius) = .ok out := by
  refine ⟨kwApply kws (dtApply s e (spApply dist clat clon radius data)),
    ?_, ?_, ?_, ?_, ?_, ?_⟩
  · rw [filter_by_coordinates_eval dist data clat clon radius hc hsp]
    simp only [ebind_ok]
    rw [filter_by_date_eval (spApply dist clat clon radius data) s e
      (dateOk_spApply s e dist clat clon radius data hdt)]
    simp only [ebind_ok]
    rw [filter_by_keyword_eval (dtApply s e (spApply dist clat clon radius data)) kws
      (fun r hr => recordText_isSome_spApply dist clat clon radius data hkw r
        (dtApply_mem s e _ r hr))]
  · rw [filter_by_coordinates_eval dist data clat clon radius hc hsp]
    simp only [ebind_ok]
    rw [filter_by_keyword_eval (spApply dist clat clon radius data) kws
      (recordText_isSome_spApply dist clat clon radius data hkw)]
    simp only [ebind_ok]
    rw [filter_by_date_eval (kwApply kws (spApply dist clat clon radius data)) s e
      (fun r hr => dateOk_spApply s e dist clat clon radius data hdt r
        (kwApply_mem kws _ r hr))]
    rw [← kwApply_dtApply_comm]
  · rw [filter_by_date_eval data s e hdt]
    simp only [ebind_ok]
    rw [filter_by_coordinates_eval dist (dtApply s e data) clat clon radius hc
      (fun r hr => hsp r (dtApply_mem s e data r hr))]
    simp only [ebind_ok]
    rw [filter_by_keyword_eval (spApply dist clat clon radius (dtApply s e data)) kws
      (recordText_isSome_spApply dist clat clon radius (dtApply s e data)
        (fun r hr => hkw r (dtApply_mem s e data r hr)))]
    rw [← dtApply_spApply_comm]
  · rw [filter_by_date_eval data s e hdt]
    simp only [ebind_ok]
    rw [filter_by_keyword_eval (dtApply s e data) kws
      (fun r hr => hkw r (dtApply_mem s e data r hr))]
    simp only [ebind_ok]
    rw [filter_by_coordinates_eval dist (kwApply kws (dtApply s e data)) clat clon radius hc
      (fun r hr => hsp r (dtApply_mem s e data r (kwApply_mem kws _ r hr)))]
    rw [← kwApply_spApply_comm, ← dtApply_spApply_comm]
  · rw [filter_by_keyword_eval data kws hkw]
    simp only [ebind_ok]
    rw [filter_by_coordinates_eval dist (kwApply kws data) clat clon radius hc
      (fun r hr => hsp r (kwApply_mem kws data r hr))]
    simp only [ebind_ok]
    rw [filter_by_date_eval (spApply dist clat clon radius (kwApply kws data)) s e
      (dateOk_spApply s e dist clat clon radius (kwApply kws data)
        (fun r hr => hdt r (kwApply_mem kws data r hr)))]
    rw [← kwApply_spApply_comm, ← kwApply_dtApply_comm]
  · rw [filter_by_keyword_eval data kws hkw]
    simp only [ebind_ok]
    rw [filter_by_date_eval (kwApply kws data) s e
      (fun r hr => hdt r (kwApply_mem kws data r hr))]
    simp only [ebind_ok]
    rw [filter_by_coordinates_eval dist (dtApply s e (kwApply kws data)) clat clon radius hc
      (fun r hr => hsp r (kwApply_mem kws data r (dtApply_mem s e _ r hr)))]
    rw [← dtApply_spApply_comm, ← kwApply_spApply_comm, ← kwApply_dtApply_comm]

/-- C8 counterexample: filter order changes the outcome on a record with
a `None` title.  Run first, the keyword filter raises `AttributeError`
(`None.lower()`); but when the spatial filter runs first it silently
drops the record (no coordinate keys), and the keyword filter then
succeeds with an empty result. -/
theorem filter_order_counterexample :
    (filter_by_keyword [[("title", PyVal.none), ("content", PyVal.str "x")]] ["x"]
        >>= fun l1 => filter_by_coordinates degDistKm l1 0 0 1)
      = .error PyErr.attributeError ∧
    (filter_by_coordinates degDistKm
        [[("title", PyVal.none), ("content", PyVal.str "x")]] 0 0 1
        >>= fun l1 => filter_by_keyword l1 ["x"])
      = .ok [] := ⟨rfl, rfl⟩

/-- C8 witness: on a record every filter can process, the
spatial-temporal-keyword order and the keyword-temporal-spatial order
return the same result. -/
theorem filters_commute_witness :
    (filter_by_coordinates degDistKm
        [[("latitude", PyVal.float 48), ("longitude", PyVal.float 2),
          ("title", PyVal.str "Paris"), ("content", PyVal.str "museum"),
          ("date", PyVal.str "2024-01-02 10:00:00")]] 48 2 1 >>= fun l1 =>
      filter_by_date l1 (some ⟨2024, 1, 1, 0, 0, 0, Option.none⟩) Option.none >>= fun l2 =>
        filter_by_keyword l2 ["paris"]) =
    (filter_by_keyword
        [[("latitude", PyVal.float 48), ("longitude", PyVal.float 2),
          ("title", PyVal.str "Paris"), ("content", PyVal.str "museum"),
          ("date", PyVal.str "2024-01-02 10:00:00")]] ["paris"] >>= fun l1 =>
      filter_by_date l1 (some ⟨2024, 1, 1, 0, 0, 0, Option.none⟩) Option.none >>= fun l2 =>
        filter_by_coordinates degDistKm l2 48 2 1) := by
  obtain ⟨out, h1, h2, h3, h4, h5, h6⟩ := filters_commute degDistKm
    [[("latitude", PyVal.float 48), ("longitude", PyVal.float 2),
      ("title", PyVal.str "Paris"), ("content", PyVal.str "museum"),
      ("date", PyVal.str "2024-01-02 10:00:00")]]
    (some ⟨2024, 1, 1, 0, 0, 0, Option.none⟩) Option.none ["paris"] 48 2 1
    (by norm_num)
    (fun r hr => by rw [List.mem_singleton] at hr; subst hr; rfl)
    (fun r hr => by rw [List.mem_singleton] at hr; subst hr; with_unfolding_all rfl)
    (fun r hr => by rw [List.mem_singleton] at hr; subst hr; with_unfolding_all rfl)
  rw [h1, h6]
